import Mathlib

/-!
Verification of the DraGoNNs feedforward-neural-network core.

The Go sources are shallowly embedded: `float64` values become real numbers,
`gonum`'s `mat.Dense` becomes the `Mat` record below (explicit dimensions plus a
total entry function; entries outside the declared dimensions are irrelevant
junk), in-place mutation becomes explicit state passing, and Go panics become
`Except String` errors carrying the runtime or library message.  The repository
keeps several successive versions of the network core side by side; both the
older variant (augmented weight matrix, `FFNetwork` with named scratch buffers)
and the newer variant (separate weights and bias, `delta`/`rDcDa`/`rDaDz`
scratch) are embedded, since different claims refer to different variants.
-/

namespace DraGoNNs

/-- Shallow embedding of gonum's `mat.Dense`: explicit row and column counts and
a total entry function.  All operations below read only entries inside the
declared dimensions of their operands. -/
structure Mat where
  rows : ℕ
  cols : ℕ
  entry : ℕ → ℕ → ℝ

/-- Go runtime message for a slice or matrix index out of range. -/
def indexOutOfRangeMsg : String := "runtime error: index out of range"

/-- gonum's `ErrZeroLength` panic message, raised by `mat.NewDense` when a
dimension is zero. -/
def zeroLengthMsg : String := "mat: zero length in matrix dimension"

/-- Model of `mat.NewDense(r, c, nil)`: an all-zero r by c matrix.  (The checked
constructor `Mat.newDense` below additionally models the zero-dimension panic and
is used where a source path can actually reach it.) -/
def Mat.new (r c : ℕ) : Mat := ⟨r, c, fun _ _ => 0⟩

/-- Model of `mat.NewDense` including gonum's panic on a zero dimension. -/
def Mat.newDense (r c : ℕ) (f : ℕ → ℕ → ℝ) : Except String Mat :=
  if r = 0 ∨ c = 0 then .error zeroLengthMsg else .ok ⟨r, c, f⟩

/-- Model of `Dense.Set(i, j, v)` (in-place write becomes a functional update). -/
def Mat.set (m : Mat) (i j : ℕ) (v : ℝ) : Mat :=
  ⟨m.rows, m.cols, fun i' j' => if i' = i ∧ j' = j then v else m.entry i' j'⟩

/-- Model of `Dense.At(i, j)` including gonum's bounds-check panic. -/
def Mat.atChecked (m : Mat) (i j : ℕ) : Except String ℝ :=
  if i < m.rows ∧ j < m.cols then .ok (m.entry i j) else .error indexOutOfRangeMsg

/-- Model of `Matrix.T()` (transpose view). -/
def Mat.T (m : Mat) : Mat := ⟨m.cols, m.rows, fun i j => m.entry j i⟩

/-- Model of `Dense.Add` / `ops.Add` (elementwise sum; the Go receiver is pure
storage, the result's dimensions are the first operand's). -/
def Mat.add (a b : Mat) : Mat :=
  ⟨a.rows, a.cols, fun i j => a.entry i j + b.entry i j⟩

/-- Model of `Dense.Sub` / `ops.Sub`. -/
def Mat.sub (a b : Mat) : Mat :=
  ⟨a.rows, a.cols, fun i j => a.entry i j - b.entry i j⟩

/-- Model of `Dense.MulElem` / `ops.H` (Hadamard product). -/
def Mat.mulElem (a b : Mat) : Mat :=
  ⟨a.rows, a.cols, fun i j => a.entry i j * b.entry i j⟩

/-- Model of `Dense.Scale` / `ops.Scale`. -/
def Mat.scale (f : ℝ) (a : Mat) : Mat :=
  ⟨a.rows, a.cols, fun i j => f * a.entry i j⟩

/-- Model of `Dense.Product` / `ops.Mul` (matrix product; summation runs over
the first operand's declared column count). -/
def Mat.product (a b : Mat) : Mat :=
  ⟨a.rows, b.cols, fun i j => ∑ k ∈ Finset.range a.cols, a.entry i k * b.entry k j⟩

/-- Model of `mat.Sum`. -/
def Mat.total (m : Mat) : ℝ :=
  ∑ i ∈ Finset.range m.rows, ∑ j ∈ Finset.range m.cols, m.entry i j

/-- Model of `Dense.Apply(f, source)` for an index-independent `f` (the only way
the repository uses it). -/
def Mat.apply (f : ℝ → ℝ) (m : Mat) : Mat :=
  ⟨m.rows, m.cols, fun i j => f (m.entry i j)⟩

/-- utils/matrices `Fill`. -/
def Fill (rows cols : ℕ) (value : ℝ) : Mat := ⟨rows, cols, fun _ _ => value⟩

/-- utils/matrices `Noise(rows, columns, cap)`.  The `distuv.Uniform` random
source is an external collaborator; it is abstracted as the stream `rand`
(element `index` of the row-major buffer is `rand index`), and the
distribution's guarantee is stated separately as `NoiseStream`.  `mat.NewDense`'s
zero-dimension panic is kept, since one source path reaches it. -/
def Noise (rows cols : ℕ) (cap : ℝ) (rand : ℕ → ℝ) : Except String Mat :=
  Mat.newDense rows cols (fun i j => rand (i * cols + j))

/-- Contract of `distuv.Uniform{Min: -cap, Max: cap}.Rand()` after the source's
`cap = math.Abs(cap)` normalisation: every drawn sample lies in `[-|cap|, |cap|)`. -/
def NoiseStream (cap : ℝ) (rand : ℕ → ℝ) : Prop :=
  ∀ n, -|cap| ≤ rand n ∧ rand n < |cap|

/-- Go `Activator` interface (src/ffnn/functions.go): a named elementwise
function and its derivative.  `Base` and `Derivative` write into a destination
matrix preallocated with the source's shape, so both are modelled as functions
of the source. -/
structure Activator where
  name : String
  base : Mat → Mat
  deriv : Mat → Mat

/-- Go `ErrorMetric` interface: scalar cost and its gradient, both of the final
activations against the expected activations. -/
structure ErrorMetric where
  name : String
  base : Mat → Mat → ℝ
  grad : Mat → Mat → Mat

/-- Scalar sigmoid `1.0 / (1.0 + math.Exp(-x))`. -/
noncomputable def sigmoidFun (x : ℝ) : ℝ := 1 / (1 + Real.exp (-x))

/-- `Sigmoid`: `Base` applies the scalar sigmoid elementwise; `Derivative`
computes `(ones - Base(source)) .* Base(source)`. -/
noncomputable def Sigmoid : Activator where
  name := "Sigmoid"
  base := fun source => Mat.apply sigmoidFun source
  deriv := fun source =>
    Mat.mulElem (Mat.sub (Fill source.rows source.cols 1) (Mat.apply sigmoidFun source))
      (Mat.apply sigmoidFun source)

/-- `HalfSquaredError` of package ffnn (both the src/ffnn/functions.go variant and
the unnamed/part_003 variant): `Gradient(finalActivations, expectedActivations)`
is `expected - final`, and `Base` is half the sum of the squared gradient. -/
noncomputable def HalfSquaredError : ErrorMetric where
  name := "HalfSquaredError"
  base := fun finalActivations expectedActivations =>
    Mat.total (Mat.mulElem (Mat.sub expectedActivations finalActivations)
      (Mat.sub expectedActivations finalActivations)) / 2
  grad := fun finalActivations expectedActivations =>
    Mat.sub expectedActivations finalActivations

/-- The core/types variant of `HalfSquaredError.Gradient`
(src/core/types/functions.go line 72): `final - expected`, the opposite sign of
the ffnn variant above. -/
noncomputable def HalfSquaredErrorTypes : ErrorMetric where
  name := "HalfSquaredError"
  base := fun finalActivations expectedActivations =>
    Mat.total (Mat.mulElem (Mat.sub finalActivations expectedActivations)
      (Mat.sub finalActivations expectedActivations)) / 2
  grad := fun finalActivations expectedActivations =>
    Mat.sub finalActivations expectedActivations

/-- `FFLayer` of src/ffnn/layers.go: augmented representation.  `weights` is
`outputSize` by `inputSize + 1` (the last column is the bias), `inputs` is the
cached `inputSize + 1` by 1 column whose last element is forced to 1. -/
structure FFLayer where
  inputSize : ℕ
  outputSize : ℕ
  weights : Mat
  inputs : Mat
  weightedInputs : Mat
  activator : Activator
  activations : Mat

/-- `makeFFLayer`: undefined (zero) input buffer except for the forced 1 in the
last element, undefined weighted inputs and activations. -/
def makeFFLayer (inputSize outputSize : ℕ) (activator : Activator) (weights : Mat) : FFLayer :=
  { inputSize := inputSize
    outputSize := outputSize
    weights := weights
    inputs := (Mat.new (inputSize + 1) 1).set inputSize 0 1
    weightedInputs := Mat.new outputSize 1
    activator := activator
    activations := Mat.new outputSize 1 }

/-- `newFFLayer`: noisy weights with `cap = 1.0 / math.Sqrt(float64(inputSize))`
(a `Noise` panic, possible only for `outputSize = 0`, propagates). -/
noncomputable def newFFLayer (inputSize outputSize : ℕ) (activator : Activator)
    (rand : ℕ → ℝ) : Except String FFLayer :=
  (Noise outputSize (inputSize + 1) (1 / Real.sqrt inputSize) rand).map
    (makeFFLayer inputSize outputSize activator)

/-- `FFLayer.Forward`: the copy loop `for index := 0; index < inputSize; index++
{ layer.inputs.Set(index, 0, inputs.At(index, 0)) }`, then
`weightedInputs = weights · inputs` and `activations = Base(weightedInputs)`.
This unchecked version assumes the `At` reads are in bounds
(`FFLayer.forwardChecked` models the bounds panic). -/
def FFLayer.forward (layer : FFLayer) (inputs : Mat) : FFLayer :=
  let newInputs := (List.range layer.inputSize).foldl
    (fun m index => m.set index 0 (inputs.entry index 0)) layer.inputs
  let z := Mat.product layer.weights newInputs
  { layer with inputs := newInputs, weightedInputs := z, activations := layer.activator.base z }

/-- `FFLayer.Forward` with gonum's bounds check on each `inputs.At(index, 0)`
read (the only reads of the caller-supplied matrix). -/
def FFLayer.forwardChecked (layer : FFLayer) (inputs : Mat) : Except String FFLayer := do
  let newInputs ← (List.range layer.inputSize).foldlM
    (fun m index => (inputs.atChecked index 0).map (fun v => m.set index 0 v)) layer.inputs
  let z := Mat.product layer.weights newInputs
  return { layer with
    inputs := newInputs
    weightedInputs := z
    activations := layer.activator.base z }

/-- `decodeFFLayer`: the binary blob is decoded by the external gonum codec into
an `outputSize` by `inputSize + 1` matrix.  Per the external-interface contract
(spec section 6) the blob is modelled as the matrix it unmarshals to, rejected
when its shape is not the expected one. -/
def decodeFFLayer (inputSize outputSize : ℕ) (activator : Activator) (data : Mat) :
    Except String FFLayer :=
  if data.rows = outputSize ∧ data.cols = inputSize + 1 then
    .ok (makeFFLayer inputSize outputSize activator data)
  else .error "mat: unmarshal shape mismatch"

/-- `encodeFFLayer`: the layer's weight matrix, as the opaque blob. -/
def encodeFFLayer (layer : FFLayer) : Mat := layer.weights

/-- `FFNetwork` of src/ffnn/functions.go (first network variant, lines 132-150):
layers plus per-layer scratch buffers for backpropagation. -/
structure FFNetwork where
  layers : List FFLayer
  defaultLearningRate : ℝ
  errorMetric : ErrorMetric
  activationsCostGradients : List Mat
  activatorDerivativeResultsOverWeightedInputs : List Mat
  errorsOverWeightedInputs : List Mat

/-- Default layer used to totalise in-range list reads (every read proved about
is in range). -/
def dummyLayer : FFLayer := makeFFLayer 0 0 ⟨"", id, id⟩ (Mat.new 0 0)

/-- List read `network.layers[i]` (in range along every path proved about). -/
def FFNetwork.layer (network : FFNetwork) (index : ℕ) : FFLayer :=
  network.layers.getD index dummyLayer

/-- `FFNetwork.Forward`: chain `layer.Forward` in order, each layer consuming
the previous layer's activations; returns the mutated layers and the final
activations (`input` itself when there are no layers, as in the source). -/
def forwardLayers : List FFLayer → Mat → List FFLayer × Mat
  | [], input => ([], input)
  | layer :: rest, input =>
    let layer' := layer.forward input
    let (rest', out) := forwardLayers rest layer'.activations
    (layer' :: rest', out)

/-- `FFNetwork.Forward` (network-level state passing). -/
def FFNetwork.forward (network : FFNetwork) (input : Mat) : FFNetwork × Mat :=
  let fwd := forwardLayers network.layers input
  ({ network with layers := fwd.1 }, fwd.2)

/-- `differentialErrorFromOutputs` (first variant): writes the cost gradient,
the activator derivative over the weighted inputs, and their Hadamard product
(the output layer's error term) into the scratch buffers at `lastLayerIndex`. -/
def FFNetwork.differentialErrorFromOutputs (network : FFNetwork) (lastLayerIndex : ℕ)
    (expectedOutputActivations : Mat) : FFNetwork :=
  let lastLayer := network.layer lastLayerIndex
  let costGradient := network.errorMetric.grad lastLayer.activations expectedOutputActivations
  let derivative := lastLayer.activator.deriv lastLayer.weightedInputs
  { network with
    activationsCostGradients := network.activationsCostGradients.set lastLayerIndex costGradient
    activatorDerivativeResultsOverWeightedInputs :=
      network.activatorDerivativeResultsOverWeightedInputs.set lastLayerIndex derivative
    errorsOverWeightedInputs :=
      network.errorsOverWeightedInputs.set lastLayerIndex (Mat.mulElem costGradient derivative) }

/-- `differentialErrorsFromFollowingLayer` (first variant): reads
`network.layers[layerIndex + 1]` — the access that panics when the backward
loop has run past the second-to-last layer — then propagates the following
layer's error term through its transposed weights and multiplies elementwise by
this layer's activator derivative. -/
def FFNetwork.differentialErrorsFromFollowingLayer (network : FFNetwork) (layerIndex : ℕ) :
    Except String FFNetwork :=
  if layerIndex + 1 < network.layers.length then
    let layer := network.layer layerIndex
    let nextLayer := network.layer (layerIndex + 1)
    let propagated := Mat.product nextLayer.weights.T
      (network.errorsOverWeightedInputs.getD (layerIndex + 1) (Mat.new 0 0))
    let derivative := layer.activator.deriv layer.weightedInputs
    .ok { network with
      activationsCostGradients := network.activationsCostGradients.set layerIndex propagated
      activatorDerivativeResultsOverWeightedInputs :=
        network.activatorDerivativeResultsOverWeightedInputs.set layerIndex derivative
      errorsOverWeightedInputs :=
        network.errorsOverWeightedInputs.set layerIndex (Mat.mulElem propagated derivative) }
  else .error indexOutOfRangeMsg

/-- `fixLayer` (first variant): `weights -= learningRate · (errors · inputsᵀ)`;
the cached inputs include the forced 1, so the last column of the update is the
bias update. -/
def FFNetwork.fixLayer (network : FFNetwork) (layerIndex : ℕ) (learningRate : ℝ) : FFNetwork :=
  let layer := network.layer layerIndex
  let errors := network.errorsOverWeightedInputs.getD layerIndex (Mat.new 0 0)
  let errorOnInputs := Mat.product errors layer.inputs.T
  let newWeights := Mat.sub layer.weights (Mat.scale learningRate errorOnInputs)
  { network with layers := network.layers.set layerIndex { layer with weights := newWeights } }

/-- The backward loop of the first variant's `TrainWithRate`:
`for index := layersCount - 2; index >= 0; index++`.  The increment makes the
loop non-terminating except through the out-of-range panic inside the body, so
the embedding carries explicit fuel; exhausted fuel is reported as a distinct
error (never reached in the theorems below). -/
def FFNetwork.backwardLoopV1 : ℕ → FFNetwork → ℤ → Except String FFNetwork
  | 0, network, index => if 0 ≤ index then .error "fuel exhausted" else .ok network
  | fuel + 1, network, index =>
    if 0 ≤ index then
      (network.differentialErrorsFromFollowingLayer index.toNat).bind
        (fun network' => FFNetwork.backwardLoopV1 fuel network' (index + 1))
    else .ok network

/-- The weight-fixing loop `for index := 0; index < layersCount; index++`. -/
def FFNetwork.fixLoop (network : FFNetwork) (layersCount : ℕ) (learningRate : ℝ) : FFNetwork :=
  (List.range layersCount).foldl (fun n index => n.fixLayer index learningRate) network

/-- `FFNetwork.TrainWithRate` (first variant, src/ffnn/functions.go lines
280-295): forward, cost, output-layer error, the incrementing backward loop,
then the fix loop.  Returns the final state together with the source's
`(output, cost)` pair. -/
def FFNetwork.trainWithRateV1 (fuel : ℕ) (network : FFNetwork) (input expectedOutput : Mat)
    (learningRate : ℝ) : Except String (FFNetwork × Mat × ℝ) :=
  let fwd := network.forward input
  let network1 := fwd.1
  let output := fwd.2
  let layersCount := network1.layers.length
  let cost := network1.errorMetric.base output expectedOutput
  let network2 := network1.differentialErrorFromOutputs (layersCount - 1) expectedOutput
  (FFNetwork.backwardLoopV1 fuel network2 ((layersCount : ℤ) - 2)).map
    (fun network3 => (network3.fixLoop layersCount learningRate, output, cost))

/-- `FFNetwork.Train` (first variant): `TrainWithRate` at the default rate. -/
def FFNetwork.trainV1 (fuel : ℕ) (network : FFNetwork) (input expectedOutput : Mat) :
    Except String (FFNetwork × Mat × ℝ) :=
  network.trainWithRateV1 fuel input expectedOutput network.defaultLearningRate

/-- `FFNetwork.Test` (second network variant, src/ffnn/functions.go lines
437-441, stated over the augmented-layer state): forward, then the pair
`(output, errorMetric.Base(output, expected))`; no other writes. -/
noncomputable def FFNetwork.test (network : FFNetwork) (input expectedOutput : Mat) :
    FFNetwork × Mat × ℝ :=
  let fwd := network.forward input
  (fwd.1, fwd.2, network.errorMetric.base fwd.2 expectedOutput)

/-- Modelled from the spec: the newest `FFLayer` (fields `w`, `b`, `i`, `z`,
`f`, `a`), used by the second network variant in src/ffnn/functions.go and by
the factory in src/cmd/mnist_nn_storage.go, whose defining file is not under
src/.  Spec section 3/4.3: `weights` is outputSize by inputSize, `bias`
outputSize by 1, the cached `lastInput` inputSize by 1, `weightedSum =
weights·input + bias`, `output = activation.Base(weightedSum)`. -/
structure FFLayerWB where
  inputSize : ℕ
  outputSize : ℕ
  w : Mat
  b : Mat
  i : Mat
  z : Mat
  f : Activator
  a : Mat

/-- Modelled from the spec (section 4.3 Forward): copy the input column into the
cached input slot, compute `z = w·i + b` and `a = f.Base(z)`. -/
def FFLayerWB.forward (layer : FFLayerWB) (input : Mat) : FFLayerWB :=
  let newI : Mat := ⟨layer.inputSize, 1, fun r _ => input.entry r 0⟩
  let newZ := Mat.add (Mat.product layer.w newI) layer.b
  { layer with i := newI, z := newZ, a := layer.f.base newZ }

/-- `FFNetwork` of src/ffnn/functions.go (second network variant, lines
307-326): layers plus the `rDcDa`, `rDaDz` and `delta` scratch buffers. -/
structure FFNetworkWB where
  layers : List FFLayerWB
  defaultLearningRate : ℝ
  c : ErrorMetric
  rDcDa : List Mat
  rDaDz : List Mat
  delta : List Mat

/-- Default layer used to totalise in-range list reads. -/
def dummyLayerWB : FFLayerWB :=
  ⟨0, 0, Mat.new 0 0, Mat.new 0 0, Mat.new 0 0, Mat.new 0 0, ⟨"", id, id⟩, Mat.new 0 0⟩

/-- List read `network.layers[index]` (in range along every path proved about). -/
def FFNetworkWB.layer (network : FFNetworkWB) (index : ℕ) : FFLayerWB :=
  network.layers.getD index dummyLayerWB

/-- `FFNetwork.Forward` (second variant): chain `layer.Forward`, each layer
consuming the previous layer's `a`. -/
def forwardLayersWB : List FFLayerWB → Mat → List FFLayerWB × Mat
  | [], input => ([], input)
  | layer :: rest, input =>
    let layer' := layer.forward input
    let (rest', out) := forwardLayersWB rest layer'.a
    (layer' :: rest', out)

/-- Network-level `Forward` (second variant). -/
def FFNetworkWB.forward (network : FFNetworkWB) (input : Mat) : FFNetworkWB × Mat :=
  let fwd := forwardLayersWB network.layers input
  ({ network with layers := fwd.1 }, fwd.2)

/-- `Test` (second variant): forward, then `(output, c.Base(output, expected))`. -/
noncomputable def FFNetworkWB.test (network : FFNetworkWB) (input expectedOutput : Mat) :
    FFNetworkWB × Mat × ℝ :=
  let fwd := network.forward input
  (fwd.1, fwd.2, network.c.base fwd.2 expectedOutput)

/-- `opDeltaInLastLayer`: `rDcDa[last] = c.Gradient(a, t)`, `rDaDz[last] =
f.Derivative(z)`, `delta[last] = rDcDa ⊙ rDaDz`. -/
def FFNetworkWB.opDeltaInLastLayer (network : FFNetworkWB) (lastLayerIndex : ℕ)
    (t : Mat) : FFNetworkWB :=
  let lastLayer := network.layer lastLayerIndex
  let rDcDa := network.c.grad lastLayer.a t
  let rDaDz := lastLayer.f.deriv lastLayer.z
  { network with
    rDcDa := network.rDcDa.set lastLayerIndex rDcDa
    rDaDz := network.rDaDz.set lastLayerIndex rDaDz
    delta := network.delta.set lastLayerIndex (Mat.mulElem rDcDa rDaDz) }

/-- `opDeltaInNonLastLayer`: `rDcDa[i] = w[i+1]ᵀ · delta[i+1]`, `rDaDz[i] =
f.Derivative(z[i])`, `delta[i] = rDcDa ⊙ rDaDz`. -/
def FFNetworkWB.opDeltaInNonLastLayer (network : FFNetworkWB) (layerIndex : ℕ) : FFNetworkWB :=
  let layer := network.layer layerIndex
  let rDcDa := Mat.product (network.layer (layerIndex + 1)).w.T
    (network.delta.getD (layerIndex + 1) (Mat.new 0 0))
  let rDaDz := layer.f.deriv layer.z
  { network with
    rDcDa := network.rDcDa.set layerIndex rDcDa
    rDaDz := network.rDaDz.set layerIndex rDaDz
    delta := network.delta.set layerIndex (Mat.mulElem rDcDa rDaDz) }

/-- `fixLayer` (second variant): `w -= learningRate · (delta · iᵀ)` and
`b -= learningRate · delta`. -/
def FFNetworkWB.fixLayer (network : FFNetworkWB) (layerIndex : ℕ)
    (learningRate : ℝ) : FFNetworkWB :=
  let layer := network.layer layerIndex
  let delta := network.delta.getD layerIndex (Mat.new 0 0)
  let newW := Mat.sub layer.w (Mat.scale learningRate (Mat.product delta layer.i.T))
  let newB := Mat.sub layer.b (Mat.scale learningRate delta)
  { network with layers := network.layers.set layerIndex { layer with w := newW, b := newB } }

/-- The decrementing backward loop of `adjust`:
`for index := layersCount - 2; index >= 0; index--`.  `deltaLoop network (k+1)`
runs the body at `k` and recurses at `k`, so `deltaLoop network (layersCount-1)`
visits `layersCount-2, ..., 1, 0` in decreasing order. -/
def FFNetworkWB.deltaLoop : FFNetworkWB → ℕ → FFNetworkWB
  | network, 0 => network
  | network, k + 1 => FFNetworkWB.deltaLoop (network.opDeltaInNonLastLayer k) k

/-- The fix loop of `adjust`: `for index := 0; index < layersCount; index++`. -/
def FFNetworkWB.fixLoop (network : FFNetworkWB) (layersCount : ℕ)
    (learningRate : ℝ) : FFNetworkWB :=
  (List.range layersCount).foldl (fun n index => n.fixLayer index learningRate) network

/-- `adjust` (src/ffnn/functions.go lines 443-453): the output layer's delta,
then every interior delta in decreasing index order, then the fix loop. -/
def FFNetworkWB.adjust (network : FFNetworkWB) (expectedOutput : Mat)
    (learningRate : ℝ) : FFNetworkWB :=
  let layersCount := network.layers.length
  ((network.opDeltaInLastLayer (layersCount - 1) expectedOutput).deltaLoop
    (layersCount - 1)).fixLoop layersCount learningRate

/-- `TrainWithRate` (second variant, lines 455-461): `Test`, then `adjust`. -/
noncomputable def FFNetworkWB.trainWithRate (network : FFNetworkWB)
    (input expectedOutput : Mat) (learningRate : ℝ) : FFNetworkWB × Mat × ℝ :=
  let tst := network.test input expectedOutput
  ((tst.1).adjust expectedOutput learningRate, tst.2.1, tst.2.2)

/-- `Train` (second variant): `TrainWithRate` at the default rate. -/
noncomputable def FFNetworkWB.train (network : FFNetworkWB) (input expectedOutput : Mat) :
    FFNetworkWB × Mat × ℝ :=
  network.trainWithRate input expectedOutput network.defaultLearningRate

/-- The activator registry of src/ffnn/functions.go (initial state, the only
one the program ever builds). -/
noncomputable def activators : List (String × Activator) :=
  [("_default", Sigmoid), ("Sigmoid", Sigmoid)]

/-- `GetActivator`: lookup with silent fallback to the `_default` entry. -/
noncomputable def GetActivator (name : String) : Activator :=
  match activators.find? (fun p => p.1 == name) with
  | some p => p.2
  | none => ((activators.find? (fun p => p.1 == "_default")).map (fun p => p.2)).getD
      ⟨"", id, id⟩

/-- The error-metric registry of src/ffnn/functions.go (initial state). -/
noncomputable def errorMetrics : List (String × ErrorMetric) :=
  [("_default", HalfSquaredError), ("HalfSquaredError", HalfSquaredError)]

/-- `GetErrorMetric`: lookup with silent fallback to the `_default` entry. -/
noncomputable def GetErrorMetric (name : String) : ErrorMetric :=
  match errorMetrics.find? (fun p => p.1 == name) with
  | some p => p.2
  | none => ((errorMetrics.find? (fun p => p.1 == "_default")).map (fun p => p.2)).getD
      ⟨"", fun _ _ => 0, fun _ _ => Mat.new 0 0⟩

/-- Go's rule for `encoding/json`: a struct field takes part in marshalling and
unmarshalling exactly when it is exported, that is, when its name starts with
an upper-case letter. -/
def isExportedField (s : String) : Bool :=
  match s.data with
  | [] => false
  | c :: _ => c.isUpper

/-- `serializedFFLayer` of src/ffnn/factory.go (note the lower-case Go field
names; the opaque `weightsData` blob is modelled as the matrix it unmarshals
to). -/
structure SerializedFFLayerOld where
  activator : String
  outputSize : ℤ
  weightsData : Mat

/-- `serializedFFNetwork` of src/ffnn/factory.go (all field names lower-case). -/
structure SerializedFFNetworkOld where
  errorMetric : String
  defaultLearningRate : ℝ
  inputSize : ℤ
  layers : List SerializedFFLayerOld

/-- Effect of `json.Encoder.Encode` followed by `json.Decoder.Decode` on a
`serializedFFLayer` (old factory): a field whose Go name is exported survives
the trip; an unexported one is dropped by the encoder (and could not be set by
the decoder), leaving the Go zero value. -/
def jsonRoundTripLayerOld (l : SerializedFFLayerOld) : SerializedFFLayerOld :=
  { activator := if isExportedField "activator" then l.activator else ""
    outputSize := if isExportedField "outputSize" then l.outputSize else 0
    weightsData := if isExportedField "weightsData" then l.weightsData else Mat.new 0 0 }

/-- Effect of the JSON encode/decode round trip on the old factory's
`serializedFFNetwork`, field by field with the Go field names. -/
def jsonRoundTripOld (env : SerializedFFNetworkOld) : SerializedFFNetworkOld :=
  { errorMetric := if isExportedField "errorMetric" then env.errorMetric else ""
    defaultLearningRate :=
      if isExportedField "defaultLearningRate" then env.defaultLearningRate else 0
    inputSize := if isExportedField "inputSize" then env.inputSize else 0
    layers := if isExportedField "layers" then env.layers.map jsonRoundTripLayerOld else [] }

/-- The envelope `Save` (src/ffnn/factory.go lines 108-143) writes for a
network: the file handling is the external collaborator, the envelope
construction is the source's. -/
def saveEnvelopeOld (network : FFNetwork) : SerializedFFNetworkOld :=
  { errorMetric := network.errorMetric.name
    defaultLearningRate := network.defaultLearningRate
    inputSize := ((network.layer 0).inputSize : ℤ)
    layers := network.layers.map (fun layer =>
      { activator := layer.activator.name
        outputSize := (layer.outputSize : ℤ)
        weightsData := encodeFFLayer layer }) }

/-- The per-layer loop of `Load` (old factory): reject a non-positive output
size, decode the blob, allocate the three per-layer scratch columns (all
`NewDense(outputSize, 1, nil)`, so a single list stands for the three equal
ones), and thread the output size as the next input size. -/
noncomputable def loadLayersOld (inputSize : ℕ) : List SerializedFFLayerOld →
    Except String (List FFLayer × List Mat)
  | [] => .ok ([], [])
  | s :: rest =>
    if s.outputSize < 1 then .error "output size must be >= 1"
    else do
      let layer ← decodeFFLayer inputSize s.outputSize.toNat (GetActivator s.activator)
        s.weightsData
      let (layers, scratch) ← loadLayersOld s.outputSize.toNat rest
      return (layer :: layers, Mat.new s.outputSize.toNat 1 :: scratch)

/-- `Load` (src/ffnn/factory.go lines 39-105) after the collaborator has opened
the file and JSON-decoded the envelope: the three validation checks in source
order, then the layer loop.  Every failure yields an error and no network. -/
noncomputable def loadFromEnvelopeOld (serialized : SerializedFFNetworkOld) :
    Except String FFNetwork :=
  if serialized.inputSize < 1 then .error "input size must be >= 1"
  else if serialized.layers.length = 0 then .error "at least one layer must be present"
  else if serialized.defaultLearningRate ≤ 0 then
    .error "learning rate must be positive (and, preferably, small)"
  else
    (loadLayersOld serialized.inputSize.toNat serialized.layers).map (fun p =>
      { layers := p.1
        defaultLearningRate := serialized.defaultLearningRate
        errorMetric := GetErrorMetric serialized.errorMetric
        activationsCostGradients := p.2
        activatorDerivativeResultsOverWeightedInputs := p.2
        errorsOverWeightedInputs := p.2 })

/-- `serializedFFLayer` of the newer factory (src/cmd/mnist_nn_storage.go,
second document): exported field names, separate weight and bias blobs. -/
structure SerializedFFLayerNew where
  F : String
  OutputSize : ℤ
  W : Mat
  B : Mat

/-- `serializedFFNetwork` of the newer factory (exported field names). -/
structure SerializedFFNetworkNew where
  C : String
  DefaultLearningRate : ℝ
  InputSize : ℤ
  Layers : List SerializedFFLayerNew

/-- Modelled from the spec: `decodeFFLayer` of the newest layer file (not under
src/), per the external-interface contract (spec section 6): reject a blob that
does not unmarshal to the expected `outputSize` by `inputSize` weight shape or
`outputSize` by 1 bias shape. -/
def decodeFFLayerWB (inputSize outputSize : ℕ) (f : Activator) (wData bData : Mat) :
    Except String FFLayerWB :=
  if wData.rows = outputSize ∧ wData.cols = inputSize ∧ bData.rows = outputSize ∧
      bData.cols = 1 then
    .ok ⟨inputSize, outputSize, wData, bData, Mat.new inputSize 1, Mat.new outputSize 1, f,
      Mat.new outputSize 1⟩
  else .error "mat: unmarshal shape mismatch"

/-- The per-layer loop of the newer `Load`. -/
noncomputable def loadLayersNew (inputSize : ℕ) : List SerializedFFLayerNew →
    Except String (List FFLayerWB × List Mat)
  | [] => .ok ([], [])
  | s :: rest =>
    if s.OutputSize < 1 then .error "output size must be >= 1"
    else do
      let layer ← decodeFFLayerWB inputSize s.OutputSize.toNat (GetActivator s.F) s.W s.B
      let (layers, scratch) ← loadLayersNew s.OutputSize.toNat rest
      return (layer :: layers, Mat.new s.OutputSize.toNat 1 :: scratch)

/-- `Load` of the newer factory (src/cmd/mnist_nn_storage.go lines 63-129)
after JSON decoding: the same three validation checks, then the layer loop. -/
noncomputable def loadFromEnvelopeNew (serialized : SerializedFFNetworkNew) :
    Except String FFNetworkWB :=
  if serialized.InputSize < 1 then .error "input size must be >= 1"
  else if serialized.Layers.length = 0 then .error "at least one layer must be present"
  else if serialized.DefaultLearningRate ≤ 0 then
    .error "learning rate must be positive (and, preferably, small)"
  else
    (loadLayersNew serialized.InputSize.toNat serialized.Layers).map (fun p =>
      { layers := p.1
        defaultLearningRate := serialized.DefaultLearningRate
        c := GetErrorMetric serialized.C
        rDaDz := p.2
        rDcDa := p.2
        delta := p.2 })

/-- `FFLayerSpec` (both factories).  Go's zero value holds a nil `Activator`;
`nilActivator` stands in for nil, and is never dereferenced along any path
proved about (the old `Build` panics on the zero output size first). -/
def nilActivator : Activator := ⟨"", id, id⟩

/-- Builder layer spec. -/
structure FFLayerSpec where
  outputSize : ℤ
  activator : Activator

/-- `FFNetworkBuilder` (same fields in both factories). -/
structure FFNetworkBuilder where
  defaultLearningRate : ℝ
  inputSize : ℤ
  errorMetric : ErrorMetric
  layers : List FFLayerSpec

/-- `New` of the old factory (src/ffnn/factory.go lines 158-177).  Note the
source's `layers: make([]FFLayerSpec, 2)`: a slice of LENGTH two, so the fresh
builder already carries two zero-valued layer specs. -/
noncomputable def NewOld (defaultLearningRate : ℝ) (inputSize : ℤ)
    (errorMetric : Option ErrorMetric) : Except String FFNetworkBuilder :=
  if inputSize < 1 then .error "input size must be >= 1"
  else if defaultLearningRate ≤ 0 then
    .error "learning rate must be positive (and, preferably, small)"
  else .ok
    { inputSize := inputSize
      defaultLearningRate := defaultLearningRate
      errorMetric := errorMetric.getD (GetErrorMetric "_default")
      layers := List.replicate 2 ⟨0, nilActivator⟩ }

/-- `New` of the newer factory (src/cmd/mnist_nn_storage.go lines 187-206):
identical guards, but `layers: make([]*FFLayerSpec, 0)` — an empty spec list. -/
noncomputable def NewNew (defaultLearningRate : ℝ) (inputSize : ℤ)
    (errorMetric : Option ErrorMetric) : Except String FFNetworkBuilder :=
  if inputSize < 1 then .error "input size must be >= 1"
  else if defaultLearningRate ≤ 0 then
    .error "learning rate must be positive (and, preferably, small)"
  else .ok
    { inputSize := inputSize
      defaultLearningRate := defaultLearningRate
      errorMetric := errorMetric.getD (GetErrorMetric "_default")
      layers := [] }

/-- `AddLayer` (identical in both factories): panic on a non-positive output
size, default the activator, append the spec. -/
noncomputable def FFNetworkBuilder.addLayer (builder : FFNetworkBuilder) (outputSize : ℤ)
    (activator : Option Activator) : Except String FFNetworkBuilder :=
  if outputSize < 1 then .error "output size must be >= 1"
  else .ok { builder with
    layers := builder.layers ++ [⟨outputSize, activator.getD (GetActivator "_default")⟩] }

/-- `CanBuild` (identical in both factories). -/
def FFNetworkBuilder.canBuild (builder : FFNetworkBuilder) : Bool :=
  builder.layers.length > 0

/-- The layer-construction loop of the old `Build`: `newFFLayer` per spec (a
zero spec makes `Noise` call `mat.NewDense` with zero rows, which panics),
threading each output size as the next input size. -/
noncomputable def buildLayersOld (rand : ℕ → ℕ → ℝ) (specIndex : ℕ) (inputSize : ℤ) :
    List FFLayerSpec → Except String (List FFLayer)
  | [] => .ok []
  | spec :: rest => do
    let layer ← newFFLayer inputSize.toNat spec.outputSize.toNat spec.activator
      (rand specIndex)
    let layers ← buildLayersOld rand (specIndex + 1) spec.outputSize rest
    return (layer :: layers)

/-- `Build` of the old factory (src/ffnn/factory.go lines 202-224).  The
scratch slices are allocated as `make([]*mat.Dense, layersCount)` and never
filled; the nil entries are modelled as empty matrices. -/
noncomputable def FFNetworkBuilder.buildOld (builder : FFNetworkBuilder)
    (rand : ℕ → ℕ → ℝ) : Except String FFNetwork :=
  let layersCount := builder.layers.length
  if layersCount = 0 then .error "this builder must specify at least one layer"
  else
    (buildLayersOld rand 0 builder.inputSize builder.layers).map (fun ls =>
      { layers := ls
        defaultLearningRate := builder.defaultLearningRate
        errorMetric := builder.errorMetric
        activationsCostGradients := List.replicate layersCount (Mat.new 0 0)
        activatorDerivativeResultsOverWeightedInputs := List.replicate layersCount (Mat.new 0 0)
        errorsOverWeightedInputs := List.replicate layersCount (Mat.new 0 0) })

/-- Modelled from the spec: `newFFLayer` of the newest layer file (not under
src/), per spec section 4.3 Construct: weights (outputSize by inputSize) and
bias (outputSize by 1) from independent bounded uniform noise with
`cap = 1/sqrt(inputSize)`; scratch starts undefined. -/
noncomputable def newFFLayerWB (inputSize outputSize : ℕ) (f : Activator)
    (randW randB : ℕ → ℝ) : Except String FFLayerWB := do
  let w ← Noise outputSize inputSize (1 / Real.sqrt inputSize) randW
  let b ← Noise outputSize 1 (1 / Real.sqrt inputSize) randB
  return ⟨inputSize, outputSize, w, b, Mat.new inputSize 1, Mat.new outputSize 1, f,
    Mat.new outputSize 1⟩

/-- The layer-construction loop of the newer `Build`, with the per-layer
scratch columns `NewDense(outputSize, 1, nil)`. -/
noncomputable def buildLayersNew (rand : ℕ → ℕ → ℝ) (specIndex : ℕ) (inputSize : ℤ) :
    List FFLayerSpec → Except String (List FFLayerWB × List Mat)
  | [] => .ok ([], [])
  | spec :: rest => do
    let layer ← newFFLayerWB inputSize.toNat spec.outputSize.toNat spec.activator
      (rand (2 * specIndex)) (rand (2 * specIndex + 1))
    let (layers, scratch) ← buildLayersNew rand (specIndex + 1) spec.outputSize rest
    return (layer :: layers, Mat.new spec.outputSize.toNat 1 :: scratch)

/-- `Build` of the newer factory (src/cmd/mnist_nn_storage.go lines 231-257):
panic when no layer spec is present, otherwise construct every added layer. -/
noncomputable def FFNetworkBuilder.buildNew (builder : FFNetworkBuilder)
    (rand : ℕ → ℕ → ℝ) : Except String FFNetworkWB :=
  let layersCount := builder.layers.length
  if layersCount = 0 then .error "this builder must specify at least one layer"
  else
    (buildLayersNew rand 0 builder.inputSize builder.layers).map (fun p =>
      { layers := p.1
        defaultLearningRate := builder.defaultLearningRate
        c := builder.errorMetric
        rDaDz := p.2
        rDcDa := p.2
        delta := p.2 })

/-- Spec-side view of the augmented weight matrix (spec section 3): the weight
matrix proper is its first `inputSize` columns. -/
def FFLayer.weightsPart (layer : FFLayer) : Mat :=
  ⟨layer.outputSize, layer.inputSize, layer.weights.entry⟩

/-- Spec-side view of the augmented weight matrix: the bias vector is its last
column. -/
def FFLayer.biasPart (layer : FFLayer) : Mat :=
  ⟨layer.outputSize, 1, fun r _ => layer.weights.entry r layer.inputSize⟩

/-- The augmented-input invariant: the cached input's last element (row
`inputSize`) is 1. -/
def FFLayer.biasSlotOne (layer : FFLayer) : Prop :=
  layer.inputs.entry layer.inputSize 0 = 1

/-- The augmented-input invariant for every layer of a network. -/
def FFNetwork.biasSlotsOne (network : FFNetwork) : Prop :=
  ∀ layer ∈ network.layers, layer.biasSlotOne

/-- Witness artifacts: a 1-input 1-output augmented layer with constant
weights. -/
def c7Layer : FFLayer := makeFFLayer 1 1 nilActivator (Fill 1 2 5)

/-- Witness artifacts: a 1 by 1 input column. -/
def c7Input : Mat := Fill 1 1 3

/-- Witness artifacts: a 2-input 1-output augmented layer. -/
def c9Layer : FFLayer := makeFFLayer 2 1 nilActivator (Fill 1 3 0)

/-- Witness artifacts: a 3-row input column (more rows than the layer reads). -/
def c9InputBig : Mat := Fill 3 1 7

/-- Witness artifacts: a 1-row input column (fewer rows than the layer reads). -/
def c9InputSmall : Mat := Fill 1 1 7

/-- Witness artifacts: a trivial error metric (only its wiring matters for the
structural claims). -/
def flatMetric : ErrorMetric := ⟨"Flat", fun _ _ => 0, fun a _ => a⟩

/-- Witness artifacts: a single-layer first-variant network. -/
def c10Net : FFNetwork :=
  ⟨[makeFFLayer 1 1 nilActivator (Fill 1 2 0)], 1, flatMetric,
    [Mat.new 1 1], [Mat.new 1 1], [Mat.new 1 1]⟩

/-- Witness artifacts: the result of one first-variant training call on
`c10Net` (the call completes, the loop over interior layers being empty). -/
def c10Result : FFNetwork × Mat × ℝ :=
  ((c10Net.trainWithRateV1 2 (Fill 1 1 0) (Fill 1 1 0) 1).toOption).getD
    (c10Net, Mat.new 0 0, 0)

/-- Counterexample artifacts for the incrementing backward loop: a two-layer
first-variant network (the same 2-hidden-3-matrix shape as the repository's own
784-200-10 MNIST network, scaled down to 2-2-1). -/
def c1Net : FFNetwork :=
  ⟨[makeFFLayer 2 2 nilActivator (Fill 2 3 0), makeFFLayer 2 1 nilActivator (Fill 1 3 0)],
    1, flatMetric, [Mat.new 2 1, Mat.new 1 1], [Mat.new 2 1, Mat.new 1 1],
    [Mat.new 2 1, Mat.new 1 1]⟩

/-- Counterexample artifacts for the save/load round trip: a single-layer
first-variant network with definite weights. -/
def c3Net : FFNetwork :=
  ⟨[makeFFLayer 1 1 nilActivator (Fill 1 2 4)], 1, flatMetric,
    [Mat.new 1 1], [Mat.new 1 1], [Mat.new 1 1]⟩

/-- Witness artifacts: an envelope with `inputSize = 0` (old field names). -/
def c4EnvOld : SerializedFFNetworkOld := ⟨"HalfSquaredError", 1, 0, []⟩

/-- Witness artifacts: an envelope with `InputSize = 0` (new field names). -/
def c4EnvNew : SerializedFFNetworkNew := ⟨"HalfSquaredError", 1, 0, []⟩

/-- Witness artifacts: the builder `New(1, 1, nil)` of the old factory returns
(two zero-valued layer specs present from the start). -/
noncomputable def c5BuilderOld : FFNetworkBuilder :=
  ⟨1, 1, GetErrorMetric "_default", List.replicate 2 ⟨0, nilActivator⟩⟩

/-- Witness artifacts: the builder `New(1, 1, nil)` of the newer factory
returns (no layer specs). -/
noncomputable def c5BuilderNew : FFNetworkBuilder :=
  ⟨1, 1, GetErrorMetric "_default", []⟩

/-- Witness artifacts: a zero random stream (trivially inside every uniform
noise interval). -/
def zeroStream : ℕ → ℕ → ℝ := fun _ _ => 0

/-- Witness artifacts: the layer `newFFLayer 1 1`` builds from the zero
stream. -/
noncomputable def c6Layer : FFLayer :=
  ((newFFLayer 1 1 nilActivator (fun _ => 0)).toOption).getD c7Layer

/-- Counterexample artifacts for the training-decreases-cost claim: the 2 by 1
all-ones input column of the fixed training pair. -/
def c2Input : Mat := ⟨2, 1, fun _ _ => 1⟩

/-- Counterexample artifacts: the 1 by 1 zero target of the fixed training
pair. -/
def c2Target : Mat := Mat.new 1 1

/-- Counterexample artifacts: the 2-2-1 second-variant network with sigmoid
activations, the ffnn `HalfSquaredError`, and all weights and biases zero. -/
noncomputable def c2Net0 : FFNetworkWB :=
  ⟨[⟨2, 2, Mat.new 2 2, Mat.new 2 1, Mat.new 2 1, Mat.new 2 1, Sigmoid, Mat.new 2 1⟩,
    ⟨2, 1, Mat.new 1 2, Mat.new 1 1, Mat.new 2 1, Mat.new 1 1, Sigmoid, Mat.new 1 1⟩],
    1 / 10, HalfSquaredError, [Mat.new 2 1, Mat.new 1 1], [Mat.new 2 1, Mat.new 1 1],
    [Mat.new 2 1, Mat.new 1 1]⟩

/-- One `TrainWithRate` call at learning rate 0.1 on the fixed pair. -/
noncomputable def c2TrainStep (network : FFNetworkWB) : FFNetworkWB :=
  (network.trainWithRate c2Input c2Target (1 / 10)).1

/-- The network after `n` training iterations. -/
noncomputable def c2NetAfter (n : ℕ) : FFNetworkWB := c2TrainStep^[n] c2Net0

/-- The cost the first training call reports (the cost of the untrained
network on the fixed pair). -/
noncomputable def c2InitialCost : ℝ := (c2Net0.trainWithRate c2Input c2Target (1 / 10)).2.2

/-- The cost of the network on the fixed pair after 200 training iterations. -/
noncomputable def c2FinalCost : ℝ := ((c2NetAfter 200).test c2Input c2Target).2.2

/-- The nine learnable parameters of the concrete 2-2-1 network: first-layer
weights `w1jk` (row j, column k) and biases `b1j`, second-layer weights `w2k`
and bias `b2`. -/
structure C2Params where
  w111 : ℝ
  w112 : ℝ
  w121 : ℝ
  w122 : ℝ
  b11 : ℝ
  b12 : ℝ
  w21 : ℝ
  w22 : ℝ
  b2 : ℝ

/-- The all-zero parameters of `c2Net0`. -/
def c2P0 : C2Params := ⟨0, 0, 0, 0, 0, 0, 0, 0, 0⟩

/-- Scalar form of one `TrainWithRate(input = (1,1), target = (0), rate = 0.1)`
step of the second-variant code on the 2-2-1 network: the forward pass, the
error terms `delta = (target - output) ⊙ sigmoid-derivative`, and the
`parameter -= rate · ...` updates, written entrywise. -/
noncomputable def c2Step (p : C2Params) : C2Params :=
  let z11 := p.w111 + p.w112 + p.b11
  let z12 := p.w121 + p.w122 + p.b12
  let a11 := sigmoidFun z11
  let a12 := sigmoidFun z12
  let z2 := p.w21 * a11 + p.w22 * a12 + p.b2
  let a2 := sigmoidFun z2
  let delta2 := (0 - a2) * ((1 - a2) * a2)
  let delta11 := (p.w21 * delta2) * ((1 - a11) * a11)
  let delta12 := (p.w22 * delta2) * ((1 - a12) * a12)
  { w111 := p.w111 - (1 / 10) * delta11
    w112 := p.w112 - (1 / 10) * delta11
    w121 := p.w121 - (1 / 10) * delta12
    w122 := p.w122 - (1 / 10) * delta12
    b11 := p.b11 - (1 / 10) * delta11
    b12 := p.b12 - (1 / 10) * delta12
    w21 := p.w21 - (1 / 10) * (delta2 * a11)
    w22 := p.w22 - (1 / 10) * (delta2 * a12)
    b2 := p.b2 - (1 / 10) * delta2 }

/-- Scalar form of the cost `Test` reports for parameters `p` on the fixed
pair: half the square of the final activation (the target being zero). -/
noncomputable def c2CostP (p : C2Params) : ℝ :=
  let z11 := p.w111 + p.w112 + p.b11
  let z12 := p.w121 + p.w122 + p.b12
  let z2 := p.w21 * sigmoidFun z11 + p.w22 * sigmoidFun z12 + p.b2
  sigmoidFun z2 ^ 2 / 2

/-- `C2Rep p net`: the network state carries the 2-2-1 sigmoid topology with
learnable parameters `p` (scratch buffers are unconstrained: the training step
overwrites every scratch value before reading it). -/
def C2Rep (p : C2Params) (net : FFNetworkWB) : Prop :=
  net.c = HalfSquaredError ∧
  net.rDcDa.length = 2 ∧ net.rDaDz.length = 2 ∧ net.delta.length = 2 ∧
  ∃ L1 L2, net.layers = [L1, L2] ∧
    L1.inputSize = 2 ∧ L1.f = Sigmoid ∧
    L1.w.rows = 2 ∧ L1.w.cols = 2 ∧
    L1.w.entry 0 0 = p.w111 ∧ L1.w.entry 0 1 = p.w112 ∧
    L1.w.entry 1 0 = p.w121 ∧ L1.w.entry 1 1 = p.w122 ∧
    L1.b.entry 0 0 = p.b11 ∧ L1.b.entry 1 0 = p.b12 ∧
    L2.inputSize = 2 ∧ L2.f = Sigmoid ∧
    L2.w.rows = 1 ∧ L2.w.cols = 2 ∧
    L2.w.entry 0 0 = p.w21 ∧ L2.w.entry 0 1 = p.w22 ∧ L2.b.entry 0 0 = p.b2

/-- The monotonicity invariant reached after the first training step: the
first layer's parameters are nonnegative and the second layer's have moved up
to at least their values after step one. -/
def C2Inv (p : C2Params) : Prop :=
  0 ≤ p.w111 ∧ 0 ≤ p.w112 ∧ 0 ≤ p.w121 ∧ 0 ≤ p.w122 ∧ 0 ≤ p.b11 ∧ 0 ≤ p.b12 ∧
  1 / 160 ≤ p.w21 ∧ 1 / 160 ≤ p.w22 ∧ 1 / 80 ≤ p.b2

/-! ### Helper lemmas -/

theorem Mat.set_entry (m : Mat) (i j : ℕ) (v : ℝ) (i' j' : ℕ) :
    (m.set i j v).entry i' j' = if i' = i ∧ j' = j then v else m.entry i' j' := rfl

theorem copyFold_entry (x m0 : Mat) (n i j : ℕ) :
    ((List.range n).foldl (fun m index => m.set index 0 (x.entry index 0)) m0).entry i j
      = if i < n ∧ j = 0 then x.entry i 0 else m0.entry i j := by
  induction n with
  | zero => simp
  | succ k ih =>
    rw [List.range_succ, List.foldl_append]
    simp only [List.foldl_cons, List.foldl_nil, Mat.set_entry]
    by_cases hij : i = k ∧ j = 0
    · rw [if_pos hij, if_pos ⟨hij.1 ▸ Nat.lt_succ_self k, hij.2⟩, hij.1]
    · rw [if_neg hij, ih]
      by_cases h1 : i < k ∧ j = 0
      · rw [if_pos h1, if_pos ⟨Nat.lt_succ_of_lt h1.1, h1.2⟩]
      · rw [if_neg h1, if_neg ?_]
        intro hc
        rcases Nat.lt_succ_iff_lt_or_eq.mp hc.1 with h | h
        · exact h1 ⟨h, hc.2⟩
        · exact hij ⟨h, hc.2⟩

theorem copyFold_congr (x1 x2 m0 : Mat) (l : List ℕ)
    (h : ∀ idx ∈ l, x1.entry idx 0 = x2.entry idx 0) :
    l.foldl (fun m index => m.set index 0 (x1.entry index 0)) m0
      = l.foldl (fun m index => m.set index 0 (x2.entry index 0)) m0 := by
  induction l generalizing m0 with
  | nil => rfl
  | cons a l ih =>
    simp only [List.foldl_cons]
    rw [h a (List.mem_cons_self a l)]
    exact ih _ (fun idx hidx => h idx (List.mem_cons_of_mem a hidx))

theorem forward_weights (layer : FFLayer) (x : Mat) :
    (layer.forward x).weights = layer.weights := rfl

theorem forward_inputSize (layer : FFLayer) (x : Mat) :
    (layer.forward x).inputSize = layer.inputSize := rfl

theorem forward_inputs_entry (layer : FFLayer) (x : Mat) (i j : ℕ) :
    (layer.forward x).inputs.entry i j
      = if i < layer.inputSize ∧ j = 0 then x.entry i 0 else layer.inputs.entry i j :=
  copyFold_entry x layer.inputs layer.inputSize i j

theorem forwardLayers_weights (ls : List FFLayer) (x : Mat) :
    (forwardLayers ls x).1.map FFLayer.weights = ls.map FFLayer.weights := by
  induction ls generalizing x with
  | nil => rfl
  | cons layer rest ih => simp only [forwardLayers, List.map_cons, List.cons.injEq]
                          exact ⟨rfl, ih _⟩

theorem forwardLayersWB_wb (ls : List FFLayerWB) (x : Mat) :
    (forwardLayersWB ls x).1.map (fun l => (l.w, l.b)) = ls.map (fun l => (l.w, l.b)) := by
  induction ls generalizing x with
  | nil => rfl
  | cons layer rest ih => simp only [forwardLayersWB, List.map_cons, List.cons.injEq]
                          exact ⟨rfl, ih _⟩

/-! ### Claim C7 -/

/-- C7: the implementation's augmented representation refines the spec's
separate weights-plus-bias formulation: after `Forward` on any input column,
the computed weighted sum (the product of the augmented `outputSize` by
`inputSize + 1` weight matrix with the cached input whose last entry is 1)
equals `weights · input + bias` entrywise, where `weights` is the first
`inputSize` columns and `bias` the last column of the augmented matrix; and the
output is the activation applied to that sum. -/
theorem c7_augmented_weights_refine_weights_plus_bias (layer : FFLayer) (x : Mat)
    (hcols : layer.weights.cols = layer.inputSize + 1)
    (hone : layer.biasSlotOne) :
    (∀ r, (layer.forward x).weightedInputs.entry r 0
        = (Mat.add (Mat.product layer.weightsPart x) layer.biasPart).entry r 0)
    ∧ (layer.forward x).activations
        = layer.activator.base (layer.forward x).weightedInputs := by
  constructor
  · intro r
    show (Mat.product layer.weights _).entry r 0 = _
    simp only [Mat.product, Mat.add, FFLayer.weightsPart, FFLayer.biasPart]
    rw [hcols, Finset.sum_range_succ]
    have hlast : ((List.range layer.inputSize).foldl
        (fun m index => m.set index 0 (x.entry index 0)) layer.inputs).entry
          layer.inputSize 0 = 1 := by
      rw [copyFold_entry, if_neg (by simp), hone]
    rw [hlast, mul_one]
    congr 1
    refine Finset.sum_congr rfl (fun k hk => ?_)
    rw [copyFold_entry, if_pos ⟨Finset.mem_range.mp hk, rfl⟩]
  · rfl

/-- Witness for C7 at a concrete 1-input 1-output layer and input. -/
theorem c7_witness :
    c7Layer.weights.cols = c7Layer.inputSize + 1 ∧ c7Layer.biasSlotOne ∧
    ((∀ r, (c7Layer.forward c7Input).weightedInputs.entry r 0
        = (Mat.add (Mat.product c7Layer.weightsPart c7Input) c7Layer.biasPart).entry r 0)
      ∧ (c7Layer.forward c7Input).activations
          = c7Layer.activator.base (c7Layer.forward c7Input).weightedInputs) :=
  ⟨rfl, rfl, c7_augmented_weights_refine_weights_plus_bias c7Layer c7Input rfl rfl⟩

/-! ### Claim C8 -/

/-- C8: for every network and input, `Forward` and `Test` leave the weights of
every layer unchanged — the full augmented matrix (bias column included) in the
first variant, and both `w` and `b` in the second variant, whose `Test` this
is.  Only per-layer scratch state changes. -/
theorem c8_forward_test_preserve_weights :
    (∀ (layer : FFLayer) (x : Mat), (layer.forward x).weights = layer.weights)
    ∧ (∀ (net : FFNetwork) (x : Mat),
        (net.forward x).1.layers.map FFLayer.weights = net.layers.map FFLayer.weights)
    ∧ (∀ (net : FFNetwork) (x e : Mat),
        (net.test x e).1.layers.map FFLayer.weights = net.layers.map FFLayer.weights)
    ∧ (∀ (net : FFNetworkWB) (x e : Mat),
        (net.test x e).1.layers.map (fun l => (l.w, l.b))
          = net.layers.map (fun l => (l.w, l.b))) := by
  refine ⟨fun layer x => rfl, fun net x => ?_, fun net x e => ?_, fun net x e => ?_⟩
  · exact forwardLayers_weights net.layers x
  · exact forwardLayers_weights net.layers x
  · exact forwardLayersWB_wb net.layers x

/-! ### Claim C9 -/

theorem copyFoldM_ok (x m0 : Mat) (l : List ℕ)
    (h : ∀ idx ∈ l, idx < x.rows ∧ 0 < x.cols) :
    l.foldlM (fun m index => (x.atChecked index 0).map (fun v => m.set index 0 v)) m0
      = .ok (l.foldl (fun m index => m.set index 0 (x.entry index 0)) m0) := by
  induction l generalizing m0 with
  | nil => rfl
  | cons a l ih =>
    rw [List.foldlM_cons, List.foldl_cons]
    rw [Mat.atChecked, if_pos (h a (List.mem_cons_self a l))]
    exact ih _ (fun idx hidx => h idx (List.mem_cons_of_mem a hidx))

theorem copyFoldM_err (x m0 : Mat) (l : List ℕ)
    (h : ∃ idx ∈ l, ¬(idx < x.rows ∧ 0 < x.cols)) :
    l.foldlM (fun m index => (x.atChecked index 0).map (fun v => m.set index 0 v)) m0
      = .error indexOutOfRangeMsg := by
  induction l generalizing m0 with
  | nil => obtain ⟨idx, hidx, _⟩ := h
           exact absurd hidx (List.not_mem_nil idx)
  | cons a l ih =>
    rw [List.foldlM_cons]
    by_cases ha : a < x.rows ∧ 0 < x.cols
    · rw [Mat.atChecked, if_pos ha]
      obtain ⟨idx, hidx, hfail⟩ := h
      rcases List.mem_cons.mp hidx with heq | hmem
      · exact absurd ha (heq ▸ hfail)
      · exact ih _ ⟨idx, hmem, hfail⟩
    · rw [Mat.atChecked, if_neg ha]
      rfl

/-- C9: `Layer.Forward` performs no shape validation.  For every input column
with at least `inputSize` rows (and at least one column) the call succeeds and
reads exactly the first `inputSize` entries of column 0 — two inputs agreeing
there produce identical results; an input with fewer than `inputSize` rows hits
gonum's out-of-bounds panic rather than a reported error. -/
theorem c9_forward_has_no_shape_validation (layer : FFLayer) (input : Mat) :
    (layer.inputSize ≤ input.rows → 0 < input.cols →
      layer.forwardChecked input = .ok (layer.forward input))
    ∧ (∀ input2 : Mat, (∀ k < layer.inputSize, input2.entry k 0 = input.entry k 0) →
        layer.forward input2 = layer.forward input)
    ∧ (input.rows < layer.inputSize →
        layer.forwardChecked input = .error indexOutOfRangeMsg) := by
  refine ⟨fun hrows hcols => ?_, fun input2 hagree => ?_, fun hrows => ?_⟩
  · rw [FFLayer.forwardChecked, copyFoldM_ok input layer.inputs _
      (fun idx hidx => ⟨lt_of_lt_of_le (List.mem_range.mp hidx) hrows, hcols⟩)]
    rfl
  · show FFLayer.forward _ _ = _
    unfold FFLayer.forward
    rw [copyFold_congr input2 input layer.inputs (List.range layer.inputSize)
      (fun idx hidx => hagree idx (List.mem_range.mp hidx))]
  · rw [FFLayer.forwardChecked]
    rw [copyFoldM_err input layer.inputs (List.range layer.inputSize)
      ⟨input.rows, List.mem_range.mpr hrows, fun hc => absurd hc.1 (lt_irrefl _)⟩]
    rfl

/-- Witness for C9: a 2-input layer succeeds on a 3-row input and panics on a
1-row input. -/
theorem c9_witness :
    (c9Layer.inputSize ≤ c9InputBig.rows ∧ 0 < c9InputBig.cols ∧
      c9Layer.forwardChecked c9InputBig = .ok (c9Layer.forward c9InputBig))
    ∧ (c9InputSmall.rows < c9Layer.inputSize ∧
      c9Layer.forwardChecked c9InputSmall = .error indexOutOfRangeMsg) :=
  ⟨⟨by decide, by decide,
    (c9_forward_has_no_shape_validation c9Layer c9InputBig).1 (by decide) (by decide)⟩,
    ⟨by decide, (c9_forward_has_no_shape_validation c9Layer c9InputSmall).2.2 (by decide)⟩⟩

/-! ### Claim C10 -/

theorem makeFFLayer_biasSlotOne (i o : ℕ) (f : Activator) (W : Mat) :
    (makeFFLayer i o f W).biasSlotOne := by
  show ((Mat.new (i + 1) 1).set i 0 1).entry i 0 = 1
  rw [Mat.set_entry, if_pos ⟨rfl, rfl⟩]

theorem forward_biasSlotOne (layer : FFLayer) (x : Mat) (h : layer.biasSlotOne) :
    (layer.forward x).biasSlotOne := by
  show (layer.forward x).inputs.entry (layer.forward x).inputSize 0 = 1
  rw [forward_inputSize, forward_inputs_entry, if_neg (by simp)]
  exact h

theorem forwardLayers_biasSlots (ls : List FFLayer) (x : Mat)
    (h : ∀ l ∈ ls, l.biasSlotOne) : ∀ l ∈ (forwardLayers ls x).1, l.biasSlotOne := by
  induction ls generalizing x with
  | nil => simp only [forwardLayers]
           exact h
  | cons layer rest ih =>
    intro l hl
    simp only [forwardLayers] at hl
    rcases List.mem_cons.mp hl with heq | hmem
    · exact heq ▸ forward_biasSlotOne layer x (h layer (List.mem_cons_self _ _))
    · exact ih _ (fun l' hl' => h l' (List.mem_cons_of_mem _ hl')) l hmem

theorem net_forward_biasSlots (net : FFNetwork) (x : Mat) (h : net.biasSlotsOne) :
    (net.forward x).1.biasSlotsOne :=
  forwardLayers_biasSlots net.layers x h

theorem diffOut_biasSlots (net : FFNetwork) (i : ℕ) (e : Mat) (h : net.biasSlotsOne) :
    (net.differentialErrorFromOutputs i e).biasSlotsOne := h

theorem diffFollow_biasSlots (net net' : FFNetwork) (i : ℕ)
    (hok : net.differentialErrorsFromFollowingLayer i = .ok net') (h : net.biasSlotsOne) :
    net'.biasSlotsOne := by
  unfold FFNetwork.differentialErrorsFromFollowingLayer at hok
  split at hok
  · cases hok
    exact h
  · cases hok

theorem backwardLoop_biasSlots (fuel : ℕ) (net net' : FFNetwork) (index : ℤ)
    (hok : FFNetwork.backwardLoopV1 fuel net index = .ok net') (h : net.biasSlotsOne) :
    net'.biasSlotsOne := by
  induction fuel generalizing net index with
  | zero =>
    unfold FFNetwork.backwardLoopV1 at hok
    split at hok
    · cases hok
    · cases hok
      exact h
  | succ k ih =>
    unfold FFNetwork.backwardLoopV1 at hok
    split at hok
    · rcases hm : net.differentialErrorsFromFollowingLayer index.toNat with e | mid
      · rw [hm] at hok
        cases hok
      · rw [hm] at hok
        exact ih mid (index + 1) hok (diffFollow_biasSlots net mid index.toNat hm h)
    · cases hok
      exact h

theorem fixLayer_biasSlots (net : FFNetwork) (i : ℕ) (lr : ℝ) (h : net.biasSlotsOne) :
    (net.fixLayer i lr).biasSlotsOne := by
  intro l hl
  rcases List.mem_or_eq_of_mem_set hl with hmem | heq
  · exact h l hmem
  · subst heq
    have hbase : (net.layer i).biasSlotOne := by
      by_cases hi : i < net.layers.length
      · have hmem : net.layer i ∈ net.layers := by
          rw [FFNetwork.layer, List.getD_eq_getElem _ _ hi]
          exact List.getElem_mem hi
        exact h _ hmem
      · show (net.layer i).inputs.entry _ 0 = 1
        rw [FFNetwork.layer, List.getD_eq_default _ _ (le_of_not_lt hi)]
        exact makeFFLayer_biasSlotOne 0 0 _ _
    exact hbase

theorem fixLoop_biasSlots (l : List ℕ) (net : FFNetwork) (lr : ℝ) (h : net.biasSlotsOne) :
    (l.foldl (fun n index => n.fixLayer index lr) net).biasSlotsOne := by
  induction l generalizing net with
  | nil => exact h
  | cons a l ih => exact ih _ (fixLayer_biasSlots net a lr h)

/-- C10: the last entry (row `inputSize`) of the cached augmented input equals
1 right after construction and is preserved by every operation — layer
`Forward`, network `Forward`, `Test`, and (whenever the first variant's
training completes) `TrainWithRate` and `Train` — since `Forward` writes only
rows 0 through `inputSize - 1` and the weight fixes touch only weights. -/
theorem c10_bias_slot_is_one_and_preserved :
    (∀ (i o : ℕ) (f : Activator) (W : Mat), (makeFFLayer i o f W).biasSlotOne)
    ∧ (∀ (layer : FFLayer) (x : Mat), layer.biasSlotOne → (layer.forward x).biasSlotOne)
    ∧ (∀ (net : FFNetwork) (x : Mat), net.biasSlotsOne → (net.forward x).1.biasSlotsOne)
    ∧ (∀ (net : FFNetwork) (x e : Mat), net.biasSlotsOne → (net.test x e).1.biasSlotsOne)
    ∧ (∀ (fuel : ℕ) (net : FFNetwork) (x e : Mat) (lr : ℝ) (res : FFNetwork × Mat × ℝ),
        net.biasSlotsOne → net.trainWithRateV1 fuel x e lr = .ok res → res.1.biasSlotsOne)
    ∧ (∀ (fuel : ℕ) (net : FFNetwork) (x e : Mat) (res : FFNetwork × Mat × ℝ),
        net.biasSlotsOne → net.trainV1 fuel x e = .ok res → res.1.biasSlotsOne) := by
  have htrain : ∀ (fuel : ℕ) (net : FFNetwork) (x e : Mat) (lr : ℝ)
      (res : FFNetwork × Mat × ℝ),
      net.biasSlotsOne → net.trainWithRateV1 fuel x e lr = .ok res → res.1.biasSlotsOne := by
    intro fuel net x e lr res h hok
    simp only [FFNetwork.trainWithRateV1] at hok
    rcases hm : FFNetwork.backwardLoopV1 fuel
        (((net.forward x).1).differentialErrorFromOutputs
          ((net.forward x).1.layers.length - 1) e)
        (((net.forward x).1.layers.length : ℤ) - 2) with err | mid
    · rw [hm] at hok
      cases hok
    · rw [hm] at hok
      cases hok
      exact fixLoop_biasSlots _ mid _
        (backwardLoop_biasSlots fuel _ mid _ hm
          (diffOut_biasSlots _ _ e (net_forward_biasSlots net x h)))
  exact ⟨makeFFLayer_biasSlotOne, forward_biasSlotOne, net_forward_biasSlots,
    fun net x e h => net_forward_biasSlots net x h, htrain,
    fun fuel net x e res h hok => htrain fuel net x e _ res h hok⟩

/-- Witness for C10: the invariant holds on a concrete single-layer network and
on the state a completed training call returns. -/
theorem c10_witness : c10Net.biasSlotsOne ∧ c10Result.1.biasSlotsOne := by
  have hinv : c10Net.biasSlotsOne := by
    intro l hl
    rcases List.mem_singleton.mp hl with rfl
    exact makeFFLayer_biasSlotOne 1 1 nilActivator (Fill 1 2 0)
  exact ⟨hinv, (c10_bias_slot_is_one_and_preserved).2.2.2.2.1 2 c10Net
    (Fill 1 1 0) (Fill 1 1 0) 1 c10Result hinv rfl⟩

/-! ### Claim C4 -/

/-- C4: for every decoded envelope, `Load` (both factory variants) returns a
validation error — and, the result being `Except.error`, no network value at
all, in particular no half-initialized one — whenever the envelope's input
size is less than 1, its layer list is empty, or its default learning rate is
not strictly positive. -/
theorem c4_load_rejects_invalid_envelopes (envO : SerializedFFNetworkOld)
    (envN : SerializedFFNetworkNew) :
    (envO.inputSize < 1 ∨ envO.layers = [] ∨ envO.defaultLearningRate ≤ 0 →
      ∃ e, loadFromEnvelopeOld envO = .error e)
    ∧ (envN.InputSize < 1 ∨ envN.Layers = [] ∨ envN.DefaultLearningRate ≤ 0 →
      ∃ e, loadFromEnvelopeNew envN = .error e) := by
  constructor
  · intro hbad
    unfold loadFromEnvelopeOld
    by_cases h1 : envO.inputSize < 1
    · rw [if_pos h1]
      exact ⟨_, rfl⟩
    · rw [if_neg h1]
      by_cases h2 : envO.layers.length = 0
      · rw [if_pos h2]
        exact ⟨_, rfl⟩
      · rw [if_neg h2]
        have h3 : envO.defaultLearningRate ≤ 0 := by
          rcases hbad with h | h | h
          · exact absurd h h1
          · exact absurd (h ▸ rfl) h2
          · exact h
        rw [if_pos h3]
        exact ⟨_, rfl⟩
  · intro hbad
    unfold loadFromEnvelopeNew
    by_cases h1 : envN.InputSize < 1
    · rw [if_pos h1]
      exact ⟨_, rfl⟩
    · rw [if_neg h1]
      by_cases h2 : envN.Layers.length = 0
      · rw [if_pos h2]
        exact ⟨_, rfl⟩
      · rw [if_neg h2]
        have h3 : envN.DefaultLearningRate ≤ 0 := by
          rcases hbad with h | h | h
          · exact absurd h h1
          · exact absurd (h ▸ rfl) h2
          · exact h
        rw [if_pos h3]
        exact ⟨_, rfl⟩

/-- Witness for C4: the zero-input-size envelopes are rejected by both
variants. -/
theorem c4_witness :
    (c4EnvOld.inputSize < 1 ∧ ∃ e, loadFromEnvelopeOld c4EnvOld = .error e)
    ∧ (c4EnvNew.InputSize < 1 ∧ ∃ e, loadFromEnvelopeNew c4EnvNew = .error e) :=
  ⟨⟨by decide, (c4_load_rejects_invalid_envelopes c4EnvOld c4EnvNew).1 (Or.inl (by decide))⟩,
    ⟨by decide, (c4_load_rejects_invalid_envelopes c4EnvOld c4EnvNew).2 (Or.inl (by decide))⟩⟩

/-! ### Claim C5 -/

theorem buildLayersNew_shapes (specs : List FFLayerSpec) (rand : ℕ → ℕ → ℝ)
    (specIndex : ℕ) (inputSize : ℤ) (ls : List FFLayerWB) (sc : List Mat)
    (hok : buildLayersNew rand specIndex inputSize specs = .ok (ls, sc)) :
    ls.length = specs.length ∧
    ∀ k, (ls.getD k dummyLayerWB).outputSize
        = ((specs.getD k ⟨0, nilActivator⟩).outputSize).toNat := by
  induction specs generalizing rand specIndex inputSize ls sc with
  | nil =>
    cases hok
    exact ⟨rfl, fun k => by cases k <;> rfl⟩
  | cons spec rest ih =>
    simp only [buildLayersNew] at hok
    rcases h1 : newFFLayerWB inputSize.toNat spec.outputSize.toNat spec.activator
        (rand (2 * specIndex)) (rand (2 * specIndex + 1)) with e | layer
    · rw [h1] at hok
      cases hok
    · rw [h1] at hok
      rcases h2 : buildLayersNew rand (specIndex + 1) spec.outputSize rest with e | p
      · rw [h2] at hok
        cases hok
      · rw [h2] at hok
        cases hok
        have hlayer : layer.outputSize = spec.outputSize.toNat := by
          simp only [newFFLayerWB] at h1
          rcases hw : Noise spec.outputSize.toNat inputSize.toNat
              (1 / Real.sqrt inputSize.toNat) (rand (2 * specIndex)) with e | w
          · rw [hw] at h1
            cases h1
          · rw [hw] at h1
            rcases hb : Noise spec.outputSize.toNat 1 (1 / Real.sqrt inputSize.toNat)
                (rand (2 * specIndex + 1)) with e | b
            · rw [hb] at h1
              cases h1
            · rw [hb] at h1
              cases h1
              rfl
        obtain ⟨hlen, hall⟩ := ih rand (specIndex + 1) spec.outputSize p.1 p.2 (by
          rw [h2])
        refine ⟨by simp [hlen], fun k => ?_⟩
        cases k with
        | zero => exact hlayer
        | succ k => exact hall k

/-- C5: a builder on which `AddLayer` was never called cannot produce a
network: the old factory's fresh builder (which wrongly starts with two
zero-valued specs) makes `Build` panic inside `mat.NewDense` via the
zero-output-size noise matrix, and the newer factory's fresh builder makes
`Build` panic at its explicit at-least-one-layer guard; and every network the
newer `Build` does return has exactly the layers that were added, with the
added output sizes. -/
theorem c5_build_fails_without_added_layers (lr : ℝ) (n : ℤ) (m : Option ErrorMetric)
    (b bn : FFNetworkBuilder) :
    (NewOld lr n m = .ok b → ∀ randO : ℕ → ℕ → ℝ, b.buildOld randO = .error zeroLengthMsg)
    ∧ (NewNew lr n m = .ok bn → ∀ randN : ℕ → ℕ → ℝ,
        bn.buildNew randN = .error "this builder must specify at least one layer")
    ∧ (∀ (bb : FFNetworkBuilder) (net : FFNetworkWB) (rr : ℕ → ℕ → ℝ),
        bb.buildNew rr = .ok net →
          bb.layers ≠ [] ∧ net.layers.length = bb.layers.length ∧
          ∀ k, (net.layer k).outputSize
              = ((bb.layers.getD k ⟨0, nilActivator⟩).outputSize).toNat) := by
  refine ⟨fun hok randO => ?_, fun hok randN => ?_, fun bb net rr hok => ?_⟩
  · have hlayers : b.layers = List.replicate 2 ⟨0, nilActivator⟩ := by
      unfold NewOld at hok
      split at hok
      · cases hok
      · split at hok
        · cases hok
        · cases hok
          rfl
    unfold FFNetworkBuilder.buildOld
    rw [hlayers]
    rfl
  · have hlayers : bn.layers = [] := by
      unfold NewNew at hok
      split at hok
      · cases hok
      · split at hok
        · cases hok
        · cases hok
          rfl
    unfold FFNetworkBuilder.buildNew
    rw [hlayers]
    rfl
  · simp only [FFNetworkBuilder.buildNew] at hok
    split at hok
    · cases hok
    · rcases h2 : buildLayersNew rr 0 bb.inputSize bb.layers with e | p
      · rw [h2] at hok
        cases hok
      · rw [h2] at hok
        cases hok
        obtain ⟨hlen, hall⟩ := buildLayersNew_shapes bb.layers rr 0 bb.inputSize p.1 p.2 (by
          rw [h2])
        exact ⟨fun hnil => by simp [hnil] at *, hlen, fun k => hall k⟩

/-- Witness for C5: `New(1, 1, nil)` of each factory yields a fresh builder
whose `Build` fails. -/
theorem c5_witness :
    NewOld 1 1 none = .ok c5BuilderOld ∧ NewNew 1 1 none = .ok c5BuilderNew ∧
    c5BuilderOld.buildOld zeroStream = .error zeroLengthMsg ∧
    c5BuilderNew.buildNew zeroStream
      = .error "this builder must specify at least one layer" := by
  have hOld : NewOld 1 1 none = .ok c5BuilderOld := by
    unfold NewOld
    rw [if_neg (by decide), if_neg (by norm_num)]
    rfl
  have hNew : NewNew 1 1 none = .ok c5BuilderNew := by
    unfold NewNew
    rw [if_neg (by decide), if_neg (by norm_num)]
    rfl
  exact ⟨hOld, hNew,
    (c5_build_fails_without_added_layers 1 1 none c5BuilderOld c5BuilderNew).1 hOld zeroStream,
    (c5_build_fails_without_added_layers 1 1 none c5BuilderOld c5BuilderNew).2.1 hNew zeroStream⟩

/-! ### Claim C1 -/

theorem forwardLayers_length (ls : List FFLayer) (x : Mat) :
    (forwardLayers ls x).1.length = ls.length := by
  induction ls generalizing x with
  | nil => rfl
  | cons layer rest ih => simp only [forwardLayers, List.length_cons, ih]

theorem backwardLoopV1_overrun (k : ℕ) (net2 : FFNetwork)
    (h2 : net2.layers.length = 2) :
    FFNetwork.backwardLoopV1 (k + 2) net2 0 = .error indexOutOfRangeMsg := by
  show FFNetwork.backwardLoopV1 (k + 1 + 1) net2 0 = _
  unfold FFNetwork.backwardLoopV1
  rw [if_pos (le_refl (0 : ℤ))]
  have hd0 : net2.differentialErrorsFromFollowingLayer (Int.toNat 0) = .ok
      { net2 with
        activationsCostGradients := net2.activationsCostGradients.set 0
          (Mat.product (net2.layer 1).weights.T
            (net2.errorsOverWeightedInputs.getD 1 (Mat.new 0 0)))
        activatorDerivativeResultsOverWeightedInputs :=
          net2.activatorDerivativeResultsOverWeightedInputs.set 0
            ((net2.layer 0).activator.deriv (net2.layer 0).weightedInputs)
        errorsOverWeightedInputs := net2.errorsOverWeightedInputs.set 0
          (Mat.mulElem
            (Mat.product (net2.layer 1).weights.T
              (net2.errorsOverWeightedInputs.getD 1 (Mat.new 0 0)))
            ((net2.layer 0).activator.deriv (net2.layer 0).weightedInputs)) } := by
    unfold FFNetwork.differentialErrorsFromFollowingLayer
    rw [if_pos (by rw [h2]
                   decide)]
    rfl
  rw [hd0]
  show FFNetwork.backwardLoopV1 (k + 1) _ (0 + 1) = _
  unfold FFNetwork.backwardLoopV1
  rw [if_pos (by decide)]
  have hd1 : FFNetwork.differentialErrorsFromFollowingLayer
      { net2 with
        activationsCostGradients := net2.activationsCostGradients.set 0
          (Mat.product (net2.layer 1).weights.T
            (net2.errorsOverWeightedInputs.getD 1 (Mat.new 0 0)))
        activatorDerivativeResultsOverWeightedInputs :=
          net2.activatorDerivativeResultsOverWeightedInputs.set 0
            ((net2.layer 0).activator.deriv (net2.layer 0).weightedInputs)
        errorsOverWeightedInputs := net2.errorsOverWeightedInputs.set 0
          (Mat.mulElem
            (Mat.product (net2.layer 1).weights.T
              (net2.errorsOverWeightedInputs.getD 1 (Mat.new 0 0)))
            ((net2.layer 0).activator.deriv (net2.layer 0).weightedInputs)) }
      (Int.toNat (0 + 1)) = .error indexOutOfRangeMsg := by
    unfold FFNetwork.differentialErrorsFromFollowingLayer
    rw [if_neg (by show ¬((1 : ℤ).toNat + 1 < net2.layers.length)
                   rw [h2]
                   decide)]
  rw [hd1]
  rfl

/-- The incrementing backward loop of the first variant's `TrainWithRate`
(`for index := layersCount - 2; index >= 0; index++`) makes every training
call on a two-layer network abort with gonum's index-out-of-range panic — after
the single interior layer it climbs to the output layer's index and reads
`layers[layersCount]` — before any `fixLayer` call can run. -/
theorem trainWithRateV1_two_layer_overrun (net : FFNetwork) (input expected : Mat)
    (lr : ℝ) (fuel : ℕ) (hn : net.layers.length = 2) (hf : 2 ≤ fuel) :
    net.trainWithRateV1 fuel input expected lr = .error indexOutOfRangeMsg := by
  obtain ⟨k, rfl⟩ : ∃ k, fuel = k + 2 :=
    ⟨fuel - 2, (Nat.sub_add_cancel hf).symm⟩
  have hlen1 : (net.forward input).1.layers.length = 2 := by
    show (forwardLayers net.layers input).1.length = 2
    rw [forwardLayers_length, hn]
  simp only [FFNetwork.trainWithRateV1]
  rw [hlen1]
  have hloop := backwardLoopV1_overrun k
    ((net.forward input).1.differentialErrorFromOutputs (2 - 1) expected)
    (by show (net.forward input).1.layers.length = 2
        exact hlen1)
  norm_num at hloop ⊢
  rw [hloop]
  rfl

/-- C1 (failing run): the first variant's `TrainWithRate`, on a concrete
two-layer network (the repository's own MNIST topology, scaled down) and any
training pair, panics with index-out-of-range instead of computing the interior
error terms in decreasing order: its backward loop increments. -/
theorem c1_trainWithRateV1_panics_on_two_layer_network :
    c1Net.trainWithRateV1 4 (Fill 2 1 1) (Fill 1 1 0) 1 = .error indexOutOfRangeMsg :=
  trainWithRateV1_two_layer_overrun c1Net (Fill 2 1 1) (Fill 1 1 0) 1 4 rfl (by decide)

/-- The second variant's `adjust` (the corrected code) does compute the error
terms in decreasing order before any weight fix: its backward pass visits
`layersCount-2, ..., 1, 0`, and `fixLayer` runs only afterwards — visible
directly from the structure of `FFNetworkWB.adjust` as the composition of the
delta computations and then the fix loop. -/
theorem adjust_computes_deltas_before_fixes (net : FFNetworkWB) (t : Mat) (lr : ℝ) :
    net.adjust t lr
      = ((net.opDeltaInLastLayer (net.layers.length - 1) t).deltaLoop
          (net.layers.length - 1)).fixLoop net.layers.length lr := rfl

/-! ### Claim C3 -/

/-- C3 (failing run): because every field of the old factory's
`serializedFFNetwork` is unexported, `json.Encode` emits an empty object and
`json.Decode` recovers only zero values, so `Load` after `Save` fails its
input-size validation for every network whatsoever — the round trip never
succeeds, let alone reproduces `Forward` outputs. -/
theorem c3_save_then_load_always_fails (net : FFNetwork) :
    loadFromEnvelopeOld (jsonRoundTripOld (saveEnvelopeOld net))
      = .error "input size must be >= 1" := by
  unfold loadFromEnvelopeOld jsonRoundTripOld
  rw [if_pos]
  show (if isExportedField "inputSize" then (saveEnvelopeOld net).inputSize else 0) < 1
  rw [if_neg (by decide)]
  decide

/-- C3 (failing run at a concrete network): the concrete single-layer network
`c3Net` cannot be restored from its own save. -/
theorem c3_roundtrip_fails_on_concrete_network :
    loadFromEnvelopeOld (jsonRoundTripOld (saveEnvelopeOld c3Net))
      = .error "input size must be >= 1" :=
  c3_save_then_load_always_fails c3Net

/-! ### Claim C6 -/

/-- C6: for `inputSize, outputSize ≥ 1`, a fresh layer has (in the spec's
separated view of the augmented matrix) an `outputSize` by `inputSize` weight
matrix and an `outputSize` by 1 bias vector, every element of both lying in the
closed interval `[-1/sqrt(inputSize), 1/sqrt(inputSize)]` — given the uniform
noise source's contract at the cap `newFFLayer` passes, `1/sqrt(inputSize)`. -/
theorem c6_fresh_layer_shapes_and_bounds (inputSize outputSize : ℕ) (f : Activator)
    (rand : ℕ → ℝ) (L : FFLayer)
    (hin : 1 ≤ inputSize) (hout : 1 ≤ outputSize)
    (hrand : NoiseStream (1 / Real.sqrt inputSize) rand)
    (hL : newFFLayer inputSize outputSize f rand = .ok L) :
    L.weightsPart.rows = outputSize ∧ L.weightsPart.cols = inputSize ∧
    L.biasPart.rows = outputSize ∧ L.biasPart.cols = 1 ∧
    (∀ r c, -(1 / Real.sqrt inputSize) ≤ L.weightsPart.entry r c ∧
      L.weightsPart.entry r c ≤ 1 / Real.sqrt inputSize) ∧
    (∀ r, -(1 / Real.sqrt inputSize) ≤ L.biasPart.entry r 0 ∧
      L.biasPart.entry r 0 ≤ 1 / Real.sqrt inputSize) := by
  have hcap : |1 / Real.sqrt inputSize| = 1 / Real.sqrt inputSize :=
    abs_of_nonneg (by positivity)
  have hbound : ∀ n, -(1 / Real.sqrt inputSize) ≤ rand n ∧
      rand n ≤ 1 / Real.sqrt inputSize := by
    intro n
    obtain ⟨hlo, hhi⟩ := hrand n
    rw [hcap] at hlo hhi
    exact ⟨hlo, le_of_lt hhi⟩
  have hL' : L = makeFFLayer inputSize outputSize f
      ⟨outputSize, inputSize + 1, fun i j => rand (i * (inputSize + 1) + j)⟩ := by
    unfold newFFLayer Noise Mat.newDense at hL
    rw [if_neg (by push_neg
                   exact ⟨Nat.one_le_iff_ne_zero.mp hout, Nat.succ_ne_zero inputSize⟩)] at hL
    cases hL
    rfl
  subst hL'
  refine ⟨rfl, rfl, rfl, rfl, fun r c => ?_, fun r => ?_⟩
  · exact hbound (r * (inputSize + 1) + c)
  · exact hbound (r * (inputSize + 1) + inputSize)

/-- Witness for C6 at `inputSize = outputSize = 1` with the zero noise
stream. -/
theorem c6_witness :
    (1 : ℕ) ≤ 1 ∧ NoiseStream (1 / Real.sqrt (1 : ℕ)) (fun _ => 0) ∧
    (c6Layer.weightsPart.rows = 1 ∧ c6Layer.weightsPart.cols = 1 ∧
      c6Layer.biasPart.rows = 1 ∧ c6Layer.biasPart.cols = 1 ∧
      (∀ r c, -(1 / Real.sqrt (1 : ℕ)) ≤ c6Layer.weightsPart.entry r c ∧
        c6Layer.weightsPart.entry r c ≤ 1 / Real.sqrt (1 : ℕ)) ∧
      (∀ r, -(1 / Real.sqrt (1 : ℕ)) ≤ c6Layer.biasPart.entry r 0 ∧
        c6Layer.biasPart.entry r 0 ≤ 1 / Real.sqrt (1 : ℕ))) := by
  have hstream : NoiseStream (1 / Real.sqrt (1 : ℕ)) (fun _ => 0) := by
    intro n
    rw [Nat.cast_one, Real.sqrt_one]
    norm_num
  exact ⟨le_refl 1, hstream,
    c6_fresh_layer_shapes_and_bounds 1 1 nilActivator (fun _ => 0) c6Layer
      (le_refl 1) (le_refl 1) hstream rfl⟩

/-! ### Claim C2: sigmoid facts -/

theorem sigmoidFun_pos (x : ℝ) : 0 < sigmoidFun x := by
  unfold sigmoidFun
  positivity

theorem sigmoidFun_lt_one (x : ℝ) : sigmoidFun x < 1 := by
  unfold sigmoidFun
  rw [div_lt_one (by positivity)]
  nlinarith [Real.exp_pos (-x)]

theorem sigmoidFun_zero : sigmoidFun 0 = 1 / 2 := by
  unfold sigmoidFun
  rw [neg_zero, Real.exp_zero]
  norm_num

theorem sigmoidFun_strictMono : StrictMono sigmoidFun := by
  intro a b hab
  unfold sigmoidFun
  apply one_div_lt_one_div_of_lt (by positivity)
  have := Real.exp_lt_exp.mpr (neg_lt_neg hab)
  linarith

theorem sigmoidFun_half_le (x : ℝ) (hx : 0 ≤ x) : 1 / 2 ≤ sigmoidFun x := by
  rcases eq_or_lt_of_le hx with h | h
  · rw [← h, sigmoidFun_zero]
  · exact le_of_lt (sigmoidFun_zero ▸ sigmoidFun_strictMono h)

theorem sigmoidFun_half_lt (x : ℝ) (hx : 0 < x) : 1 / 2 < sigmoidFun x :=
  sigmoidFun_zero ▸ sigmoidFun_strictMono hx

/-! ### Claim C2: representation of the concrete network -/

theorem c2Rep_zero : C2Rep c2P0 c2Net0 := by
  refine ⟨rfl, rfl, rfl, rfl,
    ⟨2, 2, Mat.new 2 2, Mat.new 2 1, Mat.new 2 1, Mat.new 2 1, Sigmoid, Mat.new 2 1⟩,
    ⟨2, 1, Mat.new 1 2, Mat.new 1 1, Mat.new 2 1, Mat.new 1 1, Sigmoid, Mat.new 1 1⟩,
    rfl, rfl, rfl, rfl, rfl, rfl, rfl, rfl, rfl, rfl, rfl, rfl, rfl, rfl, rfl, rfl, rfl, rfl⟩

/-! ### Claim C2: entry-computation kit -/

theorem Mat.product_entry (a b : Mat) (i j : ℕ) :
    (a.product b).entry i j = ∑ k ∈ Finset.range a.cols, a.entry i k * b.entry k j := rfl

theorem Mat.add_entry (a b : Mat) (i j : ℕ) :
    (a.add b).entry i j = a.entry i j + b.entry i j := rfl

theorem Mat.sub_entry (a b : Mat) (i j : ℕ) :
    (a.sub b).entry i j = a.entry i j - b.entry i j := rfl

theorem Mat.mulElem_entry (a b : Mat) (i j : ℕ) :
    (a.mulElem b).entry i j = a.entry i j * b.entry i j := rfl

theorem Mat.scale_entry (f : ℝ) (a : Mat) (i j : ℕ) :
    (Mat.scale f a).entry i j = f * a.entry i j := rfl

theorem Mat.T_entry (a : Mat) (i j : ℕ) : a.T.entry i j = a.entry j i := rfl

theorem Mat.apply_entry (f : ℝ → ℝ) (a : Mat) (i j : ℕ) :
    (Mat.apply f a).entry i j = f (a.entry i j) := rfl

theorem Fill_entry (r c : ℕ) (v : ℝ) (i j : ℕ) : (Fill r c v).entry i j = v := rfl

theorem Mat.sub_cols (a b : Mat) : (a.sub b).cols = a.cols := rfl

theorem Mat.sub_rows (a b : Mat) : (a.sub b).rows = a.rows := rfl

theorem Mat.mulElem_cols (a b : Mat) : (a.mulElem b).cols = a.cols := rfl

theorem Mat.mulElem_rows (a b : Mat) : (a.mulElem b).rows = a.rows := rfl

theorem Mat.product_cols (a b : Mat) : (a.product b).cols = b.cols := rfl

theorem Mat.product_rows (a b : Mat) : (a.product b).rows = a.rows := rfl

theorem Mat.add_cols (a b : Mat) : (a.add b).cols = a.cols := rfl

theorem Mat.add_rows (a b : Mat) : (a.add b).rows = a.rows := rfl

theorem Mat.scale_cols (f : ℝ) (a : Mat) : (Mat.scale f a).cols = a.cols := rfl

theorem Mat.scale_rows (f : ℝ) (a : Mat) : (Mat.scale f a).rows = a.rows := rfl

theorem Mat.T_cols (a : Mat) : a.T.cols = a.rows := rfl

theorem Mat.T_rows (a : Mat) : a.T.rows = a.cols := rfl

theorem c2Input_entry (i j : ℕ) : c2Input.entry i j = 1 := rfl

theorem c2Target_entry (i j : ℕ) : c2Target.entry i j = 0 := rfl

theorem c2Target_cols : c2Target.cols = 1 := rfl

theorem c2Target_rows : c2Target.rows = 1 := rfl

theorem forwardWB_w (layer : FFLayerWB) (x : Mat) : (layer.forward x).w = layer.w := rfl

theorem forwardWB_b (layer : FFLayerWB) (x : Mat) : (layer.forward x).b = layer.b := rfl

theorem forwardWB_f (layer : FFLayerWB) (x : Mat) : (layer.forward x).f = layer.f := rfl

theorem forwardWB_i_entry (layer : FFLayerWB) (x : Mat) (r : ℕ) :
    (layer.forward x).i.entry r 0 = x.entry r 0 := rfl

theorem forwardWB_z (layer : FFLayerWB) (x : Mat) :
    (layer.forward x).z
      = Mat.add (Mat.product layer.w ⟨layer.inputSize, 1, fun r _ => x.entry r 0⟩)
        layer.b := rfl

theorem forwardWB_a (layer : FFLayerWB) (x : Mat) :
    (layer.forward x).a = layer.f.base (layer.forward x).z := rfl

/-! ### Claim C2: one training step in scalar form -/

theorem c2Rep_step (p : C2Params) (net : FFNetworkWB) (hrep : C2Rep p net) :
    C2Rep (c2Step p) (c2TrainStep net)
      ∧ (net.test c2Input c2Target).2.2 = c2CostP p := by
  obtain ⟨hc, hlen1, hlen2, hlen3, L1, L2, hl, h1in, h1f, h1wr, h1wc, e00, e01, e10, e11,
    eb0, eb1, h2in, h2f, h2wr, h2wc, f00, f01, fb0⟩ := hrep
  obtain ⟨layersF, dlrF, cF, rdF, raF, dlF⟩ := net
  simp only at hc hlen1 hlen2 hlen3 hl ⊢
  obtain ⟨u0, u1, hu⟩ := List.length_eq_two.mp hlen1
  obtain ⟨v0, v1, hv⟩ := List.length_eq_two.mp hlen2
  obtain ⟨d0, d1, hd⟩ := List.length_eq_two.mp hlen3
  subst hc hl hu hv hd
  -- the two forwarded layers and the three computed error terms
  set L1f := L1.forward c2Input with hL1f
  set L2f := L2.forward L1f.a with hL2f
  set DL1 := Mat.mulElem (Mat.sub c2Target L2f.a) (L2.f.deriv L2f.z) with hDL1
  set DL0 := Mat.mulElem (Mat.product L2.w.T DL1) (L1.f.deriv L1f.z) with hDL0
  have hz1 : ∀ r, L1f.z.entry r 0
      = L1.w.entry r 0 + L1.w.entry r 1 + L1.b.entry r 0 := by
    intro r
    rw [hL1f, forwardWB_z, Mat.add_entry, Mat.product_entry, h1wc,
      Finset.sum_range_succ, Finset.sum_range_one]
    show L1.w.entry r 0 * c2Input.entry 0 0 + L1.w.entry r 1 * c2Input.entry 1 0
        + L1.b.entry r 0 = _
    rw [c2Input_entry, c2Input_entry, mul_one, mul_one]
  have ha1 : ∀ r, L1f.a.entry r 0 = sigmoidFun (L1f.z.entry r 0) := by
    intro r
    rw [hL1f, forwardWB_a, h1f]
    rfl
  have hz2 : L2f.z.entry 0 0
      = p.w21 * sigmoidFun (p.w111 + p.w112 + p.b11)
        + p.w22 * sigmoidFun (p.w121 + p.w122 + p.b12) + p.b2 := by
    rw [hL2f, forwardWB_z, Mat.add_entry, Mat.product_entry, h2wc,
      Finset.sum_range_succ, Finset.sum_range_one]
    show L2.w.entry 0 0 * L1f.a.entry 0 0 + L2.w.entry 0 1 * L1f.a.entry 1 0
        + L2.b.entry 0 0 = _
    rw [ha1 0, ha1 1, hz1 0, hz1 1, e00, e01, eb0, e10, e11, eb1, f00, f01, fb0]
  have ha2 : L2f.a.entry 0 0 = sigmoidFun (L2f.z.entry 0 0) := by
    rw [hL2f, forwardWB_a, h2f]
    rfl
  have hDL1e : DL1.entry 0 0
      = (0 - sigmoidFun (L2f.z.entry 0 0))
        * ((1 - sigmoidFun (L2f.z.entry 0 0)) * sigmoidFun (L2f.z.entry 0 0)) := by
    rw [hDL1, Mat.mulElem_entry, Mat.sub_entry, c2Target_entry, ha2, h2f]
    rfl
  have hDL0e : ∀ r, DL0.entry r 0
      = (L2.w.entry 0 r * DL1.entry 0 0)
        * ((1 - sigmoidFun (L1f.z.entry r 0)) * sigmoidFun (L1f.z.entry r 0)) := by
    intro r
    rw [hDL0, Mat.mulElem_entry, Mat.product_entry, Mat.T_cols, h2wr,
      Finset.sum_range_one, Mat.T_entry, h1f]
    rfl
  have hDL1cols : DL1.cols = 1 := rfl
  have hDL0cols : DL0.cols = 1 := rfl
  have hi1 : ∀ r, L1f.i.entry r 0 = 1 := by
    intro r
    rw [hL1f, forwardWB_i_entry, c2Input_entry]
  have hi2 : ∀ r, L2f.i.entry r 0 = sigmoidFun (L1f.z.entry r 0) := by
    intro r
    rw [hL2f, forwardWB_i_entry, ha1]
  have hf1' : L1f.f = Sigmoid := by
    rw [hL1f, forwardWB_f, h1f]
  have hf2' : L2f.f = Sigmoid := by
    rw [hL2f, forwardWB_f, h2f]
  constructor
  · refine ⟨rfl, rfl, rfl, rfl,
      { L1f with
        w := Mat.sub L1.w (Mat.scale (1 / 10) (Mat.product DL0 L1f.i.T))
        b := Mat.sub L1.b (Mat.scale (1 / 10) DL0) },
      { L2f with
        w := Mat.sub L2.w (Mat.scale (1 / 10) (Mat.product DL1 L2f.i.T))
        b := Mat.sub L2.b (Mat.scale (1 / 10) DL1) },
      rfl, h1in, hf1', h1wr, h1wc, ?_, ?_, ?_, ?_, ?_, ?_,
      h2in, hf2', h2wr, h2wc, ?_, ?_, ?_⟩
    all_goals
      simp only [Mat.sub_entry, Mat.scale_entry, Mat.product_entry, hDL0cols, hDL1cols,
        Finset.sum_range_one, Mat.T_entry, hi1, hi2, mul_one, hDL0e, hDL1e, hz1, hz2,
        e00, e01, e10, e11, eb0, eb1, f00, f01, fb0, c2Step]
  · show HalfSquaredError.base L2f.a c2Target = c2CostP p
    simp only [HalfSquaredError, Mat.total, Mat.mulElem_rows, Mat.mulElem_cols,
      Mat.sub_rows, Mat.sub_cols, c2Target_rows, c2Target_cols, Finset.sum_range_one,
      Mat.mulElem_entry, Mat.sub_entry, c2Target_entry, ha2, hz2, c2CostP]
    ring

/-! ### Claim C2: the ascent invariant -/

theorem c2Inv_first : C2Inv (c2Step c2P0) := by
  norm_num [c2Step, c2P0, C2Inv, sigmoidFun_zero]

theorem c2Inv_step (p : C2Params) (h : C2Inv p) : C2Inv (c2Step p) := by
  obtain ⟨h1, h2, h3, h4, h5, h6, h7, h8, h9⟩ := h
  simp only [c2Step, C2Inv]
  set a11 := sigmoidFun (p.w111 + p.w112 + p.b11) with ha11
  set a12 := sigmoidFun (p.w121 + p.w122 + p.b12) with ha12
  set a2 := sigmoidFun (p.w21 * a11 + p.w22 * a12 + p.b2) with ha2
  have p11 : 0 < a11 := sigmoidFun_pos _
  have q11 : a11 < 1 := sigmoidFun_lt_one _
  have p12 : 0 < a12 := sigmoidFun_pos _
  have q12 : a12 < 1 := sigmoidFun_lt_one _
  have p2 : 0 < a2 := sigmoidFun_pos _
  have q2 : a2 < 1 := sigmoidFun_lt_one _
  have pd2 : (0 - a2) * ((1 - a2) * a2) < 0 :=
    mul_neg_of_neg_of_pos (by linarith) (mul_pos (by linarith) p2)
  have pw21d : p.w21 * ((0 - a2) * ((1 - a2) * a2)) < 0 :=
    mul_neg_of_pos_of_neg (by linarith) pd2
  have pw22d : p.w22 * ((0 - a2) * ((1 - a2) * a2)) < 0 :=
    mul_neg_of_pos_of_neg (by linarith) pd2
  have pd11 : p.w21 * ((0 - a2) * ((1 - a2) * a2)) * ((1 - a11) * a11) < 0 :=
    mul_neg_of_neg_of_pos pw21d (by nlinarith)
  have pd12 : p.w22 * ((0 - a2) * ((1 - a2) * a2)) * ((1 - a12) * a12) < 0 :=
    mul_neg_of_neg_of_pos pw22d (by nlinarith)
  have pu21 : (0 - a2) * ((1 - a2) * a2) * a11 < 0 := mul_neg_of_neg_of_pos pd2 p11
  have pu22 : (0 - a2) * ((1 - a2) * a2) * a12 < 0 := mul_neg_of_neg_of_pos pd2 p12
  refine ⟨by linarith, by linarith, by linarith, by linarith, by linarith, by linarith,
    by linarith, by linarith, by linarith⟩

theorem c2CostP_zero : c2CostP c2P0 = 1 / 8 := by
  norm_num [c2CostP, c2P0, sigmoidFun_zero]

theorem c2CostP_lb (p : C2Params) (h : C2Inv p) : 1 / 8 < c2CostP p := by
  obtain ⟨h1, h2, h3, h4, h5, h6, h7, h8, h9⟩ := h
  simp only [c2CostP]
  set a11 := sigmoidFun (p.w111 + p.w112 + p.b11) with ha11
  set a12 := sigmoidFun (p.w121 + p.w122 + p.b12) with ha12
  have g11 : 1 / 2 ≤ a11 := sigmoidFun_half_le _ (by linarith)
  have g12 : 1 / 2 ≤ a12 := sigmoidFun_half_le _ (by linarith)
  have t1 : 1 / 320 ≤ p.w21 * a11 := by nlinarith
  have t2 : 1 / 320 ≤ p.w22 * a12 := by nlinarith
  have hz2 : 0 < p.w21 * a11 + p.w22 * a12 + p.b2 := by linarith
  have hs : 1 / 2 < sigmoidFun (p.w21 * a11 + p.w22 * a12 + p.b2) :=
    sigmoidFun_half_lt _ hz2
  nlinarith [hs]

theorem c2Rep_iter (n : ℕ) : C2Rep (c2Step^[n] c2P0) (c2NetAfter n) := by
  induction n with
  | zero => exact c2Rep_zero
  | succ k ih =>
    show C2Rep (c2Step^[k + 1] c2P0) (c2TrainStep^[k + 1] c2Net0)
    rw [Function.iterate_succ_apply', Function.iterate_succ_apply']
    exact (c2Rep_step _ _ ih).1

theorem c2Inv_iter (k : ℕ) : C2Inv (c2Step^[k + 1] c2P0) := by
  induction k with
  | zero => exact c2Inv_first
  | succ k ih =>
    rw [Function.iterate_succ_apply']
    exact c2Inv_step _ ih

/-- C2 (failing run): on the concrete 2-2-1 sigmoid network trained with
`TrainWithRate` at learning rate 0.1 on one fixed `(input, target)` pair, the
cost after 200 iterations is strictly GREATER than the initial cost (which is
exactly 1/8): with the ffnn `HalfSquaredError.Gradient` sign convention
(`expected - actual`) and `fixLayer`'s subtracting update, every step is a
gradient-ascent step, so the claimed strict decrease fails. -/
theorem c2_training_increases_cost : c2InitialCost < c2FinalCost := by
  have h0 : c2InitialCost = c2CostP c2P0 := (c2Rep_step c2P0 c2Net0 c2Rep_zero).2
  have h200 : c2FinalCost = c2CostP (c2Step^[200] c2P0) :=
    (c2Rep_step _ _ (c2Rep_iter 200)).2
  rw [h0, h200, c2CostP_zero]
  exact c2CostP_lb _ (c2Inv_iter 199)

end DraGoNNs
